import Mathlib

/-!
Verification of the ScoringService (src/cms/service/ScoringService.py) and of the
TPS task loader (src/cmscontrib/loaders/tps.py) of this repository.

The Python code is shallowly embedded: Python dicts become association lists
with replace-in-place insertion (`dinsert`), Python sets become duplicate-free
lists with append-if-absent insertion, `raise` becomes `Except.error`, and the
gevent actor state becomes an explicit `SSState` record threaded through the
operations.  Timestamps are modelled as integers (`make_timestamp` followed by
`int(...)` in the source); score values are carried opaquely as integers, no
claim computes with them.
-/

namespace CMS

/-- A Python `dict`: an association list whose keys are unique, where
assignment `d[k] = v` replaces the value in place if the key is present and
appends otherwise. -/
abbrev Dict (α β : Type) := List (α × β)

section DictOps

variable {α β : Type} [DecidableEq α]

/-- `d.get(k)` / `d[k]` lookup. -/
def dget : Dict α β → α → Option β
  | [], _ => none
  | (k', v) :: rest, k => if k' = k then some v else dget rest k

/-- `d.get(k, fallback)`. -/
def dgetD (d : Dict α β) (k : α) (fallback : β) : β :=
  (dget d k).getD fallback

/-- `d[k] = v`: replace in place if present, append otherwise. -/
def dinsert : Dict α β → α → β → Dict α β
  | [], k, v => [(k, v)]
  | (k', v') :: rest, k, v =>
      if k' = k then (k, v) :: rest else (k', v') :: dinsert rest k v

/-- `d.update(e)`: for every pair of `e` in order, `d[k] = v`. -/
def dupdate (d e : Dict α β) : Dict α β :=
  e.foldl (fun acc p => dinsert acc p.1 p.2) d

/-- `d.keys()`. -/
def dkeys (d : Dict α β) : List α := d.map Prod.fst

@[simp] theorem dget_nil (k : α) : dget ([] : Dict α β) k = none := rfl

@[simp] theorem dget_cons (k' : α) (v : β) (rest : Dict α β) (k : α) :
    dget ((k', v) :: rest) k = if k' = k then some v else dget rest k := rfl

@[simp] theorem dinsert_nil (k : α) (v : β) : dinsert ([] : Dict α β) k v = [(k, v)] := rfl

theorem dget_dinsert (d : Dict α β) (k : α) (v : β) (k' : α) :
    dget (dinsert d k v) k' = if k = k' then some v else dget d k' := by
  induction d with
  | nil => simp [dinsert]
  | cons p rest ih =>
      obtain ⟨pk, pv⟩ := p
      by_cases h : pk = k
      · subst h
        simp only [dinsert, if_pos rfl, dget_cons]
        by_cases h' : pk = k'
        · simp [h']
        · simp [h']
      · simp only [dinsert, if_neg h, dget_cons]
        by_cases h' : pk = k'
        · subst h'
          simp [Ne.symm h]
        · simp [h', ih]

@[simp] theorem dget_dinsert_self (d : Dict α β) (k : α) (v : β) :
    dget (dinsert d k v) k = some v := by
  simp [dget_dinsert]

theorem dget_dinsert_ne (d : Dict α β) (k : α) (v : β) (k' : α) (h : k ≠ k') :
    dget (dinsert d k v) k' = dget d k' := by
  simp [dget_dinsert, h]

theorem dget_eq_none_of_not_mem_dkeys {d : Dict α β} {k : α} (h : k ∉ dkeys d) :
    dget d k = none := by
  induction d with
  | nil => rfl
  | cons p rest ih =>
      obtain ⟨pk, pv⟩ := p
      simp only [dkeys, List.map_cons, List.mem_cons, not_or] at h
      simp only [dget_cons, if_neg (fun he : pk = k => h.1 he.symm)]
      exact ih h.2

/-- Lookup in `d.update(e)` when the keys of `e` are unique: the entry of `e`
wins when present. -/
theorem dget_dupdate (d e : Dict α β) (k : α) (he : (dkeys e).Nodup) :
    dget (dupdate d e) k = ((dget e k).elim (dget d k) some) := by
  induction e generalizing d with
  | nil => simp [dupdate]
  | cons p rest ih =>
      obtain ⟨pk, pv⟩ := p
      simp only [dkeys, List.map_cons, List.nodup_cons] at he
      have hrest : (dkeys rest).Nodup := he.2
      simp only [dupdate, List.foldl_cons]
      rw [show (List.foldl (fun acc p => dinsert acc p.1 p.2) (dinsert d pk pv) rest)
            = dupdate (dinsert d pk pv) rest from rfl]
      rw [ih _ hrest]
      by_cases h : pk = k
      · subst h
        have hnone : dget rest pk = none :=
          dget_eq_none_of_not_mem_dkeys he.1
        simp [hnone]
      · simp only [dget_cons, if_neg h]
        rcases hr : dget rest k with _ | v
        · simp [dget_dinsert_ne _ _ _ _ h]
        · simp

end DictOps

/-- Python set insertion: `s.add(x)` on a set modelled as a duplicate-free
list — append if absent. -/
def setAdd {α : Type} [DecidableEq α] (s : List α) (x : α) : List α :=
  if x ∈ s then s else s ++ [x]

/-- Python set union `s |= t`. -/
def setUnion {α : Type} [DecidableEq α] (s t : List α) : List α :=
  t.foldl setAdd s

theorem mem_setAdd {α : Type} [DecidableEq α] {s : List α} {x y : α} :
    y ∈ setAdd s x ↔ y ∈ s ∨ y = x := by
  unfold setAdd
  by_cases h : x ∈ s
  · simp only [if_pos h]
    constructor
    · exact Or.inl
    · rintro (hy | rfl)
      · exact hy
      · exact h
  · simp [if_neg h]

theorem mem_setUnion {α : Type} [DecidableEq α] {s t : List α} {y : α} :
    y ∈ setUnion s t ↔ y ∈ s ∨ y ∈ t := by
  induction t generalizing s with
  | nil => simp [setUnion]
  | cons x xs ih =>
      simp only [setUnion, List.foldl_cons]
      rw [show List.foldl setAdd (setAdd s x) xs = setUnion (setAdd s x) xs from rfl, ih]
      rw [mem_setAdd]
      constructor
      · rintro ((h | rfl) | h)
        · exact Or.inl h
        · exact Or.inr (List.mem_cons_self _ _)
        · exact Or.inr (List.mem_cons_of_mem _ h)
      · rintro (h | h)
        · exact Or.inl (Or.inl h)
        · rcases List.mem_cons.mp h with rfl | h
          · exact Or.inl (Or.inr rfl)
          · exact Or.inr h

/-! ### Entity id encoding (`encode_id`, ScoringService.py lines 63-83) -/

/-- UTF-8 encoding of one code point, as byte values (Python
`entity_id.encode('utf-8')` yields this byte sequence). -/
def utf8EncodeChar (n : Nat) : List Nat :=
  if n < 0x80 then [n]
  else if n < 0x800 then [0xC0 + n / 64, 0x80 + n % 64]
  else if n < 0x10000 then [0xE0 + n / 4096, 0x80 + (n / 64) % 64, 0x80 + n % 64]
  else [0xF0 + n / 0x40000, 0x80 + (n / 4096) % 64, 0x80 + (n / 64) % 64, 0x80 + n % 64]

/-- The UTF-8 bytes of a string. -/
def utf8Encode (s : String) : List Nat :=
  s.data.foldr (fun c acc => utf8EncodeChar c.toNat ++ acc) []

/-- The byte alphabet passed through unchanged by `encode_id` (the string
literal tested with `char not in ...` in the source). -/
def allowedAlphabet : String :=
  "ABCDEFGHIJKLMNOPQRSTUVWXYZabcdefghijklmnopqrstuvwxyz0123456789"

/-- Python `hex(n)`: `"0x"` followed by the lowercase base-16 digits of `n`
(no leading zeros, a single `0` digit for `n = 0`). -/
def hexPy (n : Nat) : String := "0x" ++ String.mk (Nat.toDigits 16 n)

/-- Python `s[-2:]`: the last two characters. -/
def lastTwo (s : String) : String := String.mk (s.data.drop (s.data.length - 2))

/-- `encode_id` (ScoringService.py lines 63-83): pass bytes in the allowed
alphabet through unchanged, replace every other byte with `"_" + hex(byte)[-2:]`.
The source wraps the replacement in `try ... except TypeError`, dropping the
byte with a logged error; `ord` of a one-byte string is always an `int`, so
that branch never fires and is not given a trigger in the model. -/
def encode_id (entity_id : String) : String :=
  (utf8Encode entity_id).foldl
    (fun encoded b =>
      if (allowedAlphabet.data.contains (Char.ofNat b)) = false then
        encoded ++ "_" ++ lastTwo (hexPy b)
      else
        encoded ++ String.mk [Char.ofNat b])
    ""

/-! ### Subchange ids (ScoringService.py lines 541-543, 595-597, 708-710) -/

/-- The subchange id built for a score event: `"%s%ss" % (timestamp, submission_id)`. -/
def subchange_id_score (ts : Int) (submission_id : Nat) : String :=
  toString ts ++ toString submission_id ++ "s"

/-- The subchange id built for a token event: `"%s%st" % (timestamp, submission_id)`. -/
def subchange_id_token (ts : Int) (submission_id : Nat) : String :=
  toString ts ++ toString submission_id ++ "t"

/-! ### Data model (cms.db entities as seen by ScoringService) -/

/-- Score values are floats in the source; no claim computes with them, so they
are carried opaquely as integers. -/
abbrev Score := Int

structure Token where
  timestamp : Int
deriving DecidableEq, Repr

structure User where
  id : Nat
  username : String
  first_name : String
  last_name : String
  hidden : Bool
  contest_id : Nat
deriving DecidableEq, Repr

structure Evaluation where
  codename : String
  outcome : String
  text : String
  execution_time : Int
  memory_used : Int
deriving DecidableEq, Repr

structure SubmissionResult where
  submission_id : Nat
  dataset_id : Nat
  /-- `None` when compilation has not finished; `compiled()` is its presence. -/
  compilation_outcome : Option String
  /-- Modelled from the spec: `SubmissionResult.evaluated()` (cms.db, not under
  src/) — whether the result has been fully evaluated. -/
  evaluated : Bool
  evaluations : List Evaluation
  score : Option Score
  public_score : Option Score
  score_details : Option String
  public_score_details : Option String
  ranking_score_details : Option String
deriving DecidableEq, Repr

/-- `submission_result.compiled()`. -/
def SubmissionResult.compiled (sr : SubmissionResult) : Bool :=
  sr.compilation_outcome.isSome

structure Submission where
  id : Nat
  user_id : Nat
  task_id : Nat
  timestamp : Int
  token : Option Token
deriving DecidableEq, Repr

/-- `submission.tokened()`. -/
def Submission.tokened (s : Submission) : Bool := s.token.isSome

structure Dataset where
  id : Nat
  task_id : Nat
deriving DecidableEq, Repr

structure Task where
  id : Nat
  name : String
  title : String
  num : Nat
  score_precision : Nat
  contest_id : Nat
  /-- Id of the task's active dataset (`task.active_dataset`; ORM identity of
  datasets of one session is id equality). -/
  active_dataset : Nat
  datasets : List Nat
  /-- Modelled from the spec: `get_datasets_to_judge` (cms.service, not under
  src/) — "every dataset relevant to judging" for this task. -/
  datasets_to_judge : List Nat
deriving DecidableEq, Repr

structure Contest where
  id : Nat
  name : String
  description : String
  start : Int
  stop : Int
  score_precision : Nat
deriving DecidableEq, Repr

structure EvalData where
  outcome : String
  text : String
  time : Int
  memory : Int
deriving DecidableEq, Repr

structure ScoreInput where
  submission_id : Nat
  timestamp : Int
  username : String
  evaluated : Bool
  evaluations : Dict String EvalData
  tokened : Bool
deriving DecidableEq, Repr

/-- The score-pool entry a ScoreType holds after `add_submission`. -/
structure ScoreOutput where
  score : Score
  public_score : Score
  details : String
  public_details : String
  ranking_details : String
deriving DecidableEq, Repr

/-- The persistent store plus the two collaborators the service resolves
through it. -/
structure DB where
  contests : List Contest
  tasks : List Task
  datasets : List Dataset
  users : List User
  submissions : List Submission
  results : List SubmissionResult
  /-- Modelled from the spec: `ScoreAggregator.computeScore` — the ScoreType
  of a dataset (`get_score_type` / `add_submission` / `pool`, outside src/) as
  the pure per-dataset function of §4.1; `_initialize_scorers` fills the
  scorers map for every dataset of the contest at startup, so it is total
  here. -/
  compute_score : Nat → ScoreInput → ScoreOutput
  /-- Abstract `json.loads` on a ranking-details blob: `none` models a
  `ValueError` (malformed or blank blob). -/
  parse_json : String → Option String

def DB.getContest (db : DB) (cid : Nat) : Option Contest :=
  db.contests.find? (fun c => c.id == cid)

def DB.getTask (db : DB) (tid : Nat) : Option Task :=
  db.tasks.find? (fun t => t.id == tid)

def DB.getDataset (db : DB) (did : Nat) : Option Dataset :=
  db.datasets.find? (fun d => d.id == did)

def DB.getUser (db : DB) (uid : Nat) : Option User :=
  db.users.find? (fun u => u.id == uid)

def DB.getSubmission (db : DB) (sid : Nat) : Option Submission :=
  db.submissions.find? (fun s => s.id == sid)

/-- `submission.get_result(dataset)`. -/
def DB.getResult (db : DB) (sid did : Nat) : Option SubmissionResult :=
  db.results.find? (fun r => r.submission_id == sid && r.dataset_id == did)

/-- Commit a mutated `SubmissionResult` row (keyed by submission and dataset id). -/
def DB.setResult (db : DB) (sr : SubmissionResult) : DB :=
  { db with results := db.results.map (fun r =>
      if r.submission_id == sr.submission_id && r.dataset_id == sr.dataset_id then sr else r) }

/-! ### Service state and configuration -/

/-- `config.rankings`: the configured ranking endpoint base URLs. -/
structure Config where
  rankings : List String

/-- The `submissions/` PUT body for one submission. -/
structure SubmissionPut where
  user : String
  task : String
  time : Int
deriving DecidableEq, Repr

/-- The `subchanges/` PUT body for one subchange; optional keys are only
present on the paths that set them. -/
structure SubchangePut where
  submission : String
  time : Int
  score : Option Score
  token : Option Bool
  extra : Option String
deriving DecidableEq, Repr

/-- The mutable in-memory state of the `ScoringService` actor. -/
structure SSState where
  contest_id : Nat
  submission_results_to_score : List (Nat × Nat)
  submissions_to_token : List Nat
  scoring_old_submission : Bool
  submission_results_scored : List (Nat × Nat)
  submissions_tokened : List Nat
  initialize_queue : List String
  submission_queue : Dict String (Dict String SubmissionPut)
  subchange_queue : Dict String (Dict String SubchangePut)

/-- The dict-comprehension over `submission_result.evaluations` built for
`add_submission`. -/
def evalsDict (sr : SubmissionResult) : Dict String EvalData :=
  sr.evaluations.foldl
    (fun d ev => dinsert d ev.codename
      { outcome := ev.outcome, text := ev.text, time := ev.execution_time,
        memory := ev.memory_used }) []

/-- `queue.setdefault(ranking, dict())[key] = data`: one per-ranking enqueue
step. -/
def enqueueStep {δ : Type} (key : String) (data : δ)
    (q : Dict String (Dict String δ)) (ranking : String) : Dict String (Dict String δ) :=
  dinsert q ranking (dinsert (dgetD q ranking []) key data)

/-- The enqueue loop shared by `new_evaluation` and `submission_tokened`
(lines 556-565 and 603-612): for every configured ranking, one entry in the
submission queue and one in the subchange queue. -/
def enqueueBoth (cfg : Config) (st : SSState)
    (submission_key : String) (submission_put_data : SubmissionPut)
    (subchange_key : String) (subchange_put_data : SubchangePut) : SSState :=
  { st with
    submission_queue := cfg.rankings.foldl
      (enqueueStep submission_key submission_put_data) st.submission_queue,
    subchange_queue := cfg.rankings.foldl
      (enqueueStep subchange_key subchange_put_data) st.subchange_queue }

/-! ### The scoring path: `new_evaluation` (lines 450-565) -/

/-- The arguments `new_evaluation` passes to `scorer.add_submission`
(lines 495-505). -/
def scoreInput (submission_id : Nat) (submission : Submission)
    (submission_result : SubmissionResult) (user : User) : ScoreInput :=
  { submission_id := submission_id, timestamp := submission.timestamp,
    username := user.username, evaluated := submission_result.evaluated,
    evaluations := evalsDict submission_result, tokened := submission.tokened }

/-- The score fields `new_evaluation` stores on the result row
(lines 510-522). -/
def scoredResult (submission_result : SubmissionResult) (out : ScoreOutput) :
    SubmissionResult :=
  { submission_result with
    score := some out.score,
    public_score := some out.public_score,
    score_details := some out.details,
    public_score_details := some out.public_details,
    ranking_score_details := some out.ranking_details }

def new_evaluation (cfg : Config) (db : DB) (st : SSState)
    (submission_id dataset_id : Nat) : Except String (DB × SSState) :=
  match DB.getSubmission db submission_id with
  | none => .error "ValueError"
  | some submission =>
  match DB.getDataset db dataset_id with
  | none => .error "ValueError"
  | some _dataset =>
  match DB.getResult db submission_id dataset_id with
  | none => .ok (db, st)  -- warning "is not compiled", no-op
  | some submission_result =>
  if submission_result.compiled = false then .ok (db, st)
  else if submission_result.compilation_outcome = some "ok" ∧ submission_result.evaluated = false then
    .ok (db, st)  -- warning "compiled correctly but is not evaluated", no-op
  else
  match DB.getUser db submission.user_id with
  | none => .error "AttributeError"
  | some user =>
  if user.hidden then .ok (db, st)  -- privacy: skip silently
  else
    let scorer_out := db.compute_score dataset_id
      (scoreInput submission_id submission submission_result user)
    let st1 := { st with submission_results_scored :=
                   setAdd st.submission_results_scored (submission_id, dataset_id) }
    let db' := DB.setResult db (scoredResult submission_result scorer_out)
    let ranking_score_details := db.parse_json scorer_out.ranking_details
    match DB.getTask db submission.task_id with
    | none => .error "AttributeError"
    | some task =>
    if dataset_id ≠ task.active_dataset then .ok (db', st1)  -- not live: no dispatch
    else
      let submission_put_data : SubmissionPut :=
        { user := encode_id user.username, task := encode_id task.name,
          time := submission.timestamp }
      let subchange_id := subchange_id_score submission.timestamp submission_id
      let subchange_put_data : SubchangePut :=
        { submission := encode_id (toString submission_id),
          time := submission.timestamp, score := some scorer_out.score,
          token := none, extra := ranking_score_details }
      .ok (db', enqueueBoth cfg st1 (encode_id (toString submission_id))
             submission_put_data (encode_id subchange_id) subchange_put_data)

/-! ### The tokening path: `submission_tokened` (lines 567-612) -/

def submission_tokened (cfg : Config) (db : DB) (st : SSState)
    (submission_id : Nat) : Except String SSState :=
  match DB.getSubmission db submission_id with
  | none => .error "KeyError"
  | some submission =>
  match DB.getUser db submission.user_id with
  | none => .error "AttributeError"
  | some user =>
  if user.hidden then .ok st  -- privacy: skip silently
  else
  match DB.getTask db submission.task_id, submission.token with
  | some task, some token =>
    let st1 := { st with submissions_tokened := setAdd st.submissions_tokened submission_id }
    let submission_put_data : SubmissionPut :=
      { user := encode_id user.username, task := encode_id task.name,
        time := submission.timestamp }
    let subchange_id := subchange_id_token token.timestamp submission_id
    let subchange_put_data : SubchangePut :=
      { submission := encode_id (toString submission_id),
        time := token.timestamp, score := none, token := some true, extra := none }
    .ok (enqueueBoth cfg st1 (encode_id (toString submission_id))
           submission_put_data (encode_id subchange_id) subchange_put_data)
  | _, _ => .error "AttributeError"

/-! ### `dataset_updated` (lines 675-726) -/

def dataset_updated (cfg : Config) (db : DB) (st : SSState)
    (task_id : Nat) : Except String SSState :=
  match DB.getTask db task_id with
  | none => .error "AttributeError"
  | some task =>
    let dataset_id := task.active_dataset
    let subchanges : List (String × SubchangePut) :=
      (db.submissions.filter (fun s => s.task_id == task.id)).map (fun submission =>
        let score_and_extra : Option Score × Option String :=
          match DB.getResult db submission.id dataset_id with
          | none => (none, none)  -- not yet compiled, evaluated or scored
          | some submission_result =>
            (submission_result.score,
             match submission_result.ranking_score_details with
             | none => none  -- json.loads(None) raises TypeError, treated as blank
             | some blob => db.parse_json blob)
        (subchange_id_score submission.timestamp submission.id,
         { submission := encode_id (toString submission.id),
           time := submission.timestamp, score := score_and_extra.1,
           token := none, extra := score_and_extra.2 }))
    let queue' :=
      cfg.rankings.foldl
        (fun q ranking =>
          subchanges.foldl (fun q2 p => enqueueStep (encode_id p.1) p.2 q2 ranking) q)
        st.subchange_queue
    .ok { st with subchange_queue := queue' }

/-! ### Catch-up scan: `search_jobs_not_done` (lines 224-269) -/

/-- `contest.get_submissions()`: every submission of the contest. -/
def submissionsOfContest (db : DB) (cid : Nat) : List Submission :=
  db.submissions.filter (fun s =>
    match DB.getTask db s.task_id with
    | some t => t.contest_id == cid
    | none => false)

/-- The inner loop of the scan (lines 242-249): for every dataset to judge,
queue the (submission, dataset) pair when its result is evaluated or failed
compilation and is not yet marked scored. -/
def scanDatasets (db : DB) (st : SSState) (submission : Submission)
    (ps : List (Nat × Nat)) (dsids : List Nat) : List (Nat × Nat) :=
  dsids.foldl
    (fun ps dataset_id =>
      match DB.getResult db submission.id dataset_id with
      | none => ps
      | some sr =>
        if (sr.evaluated || (sr.compilation_outcome == some "fail")) &&
            !(decide ((submission.id, dataset_id) ∈ st.submission_results_scored)) then
          setAdd ps (submission.id, dataset_id)
        else ps)
    ps

/-- The body of the scan over one submission (lines 241-253). -/
def scanStep (db : DB) (st : SSState) (acc : List (Nat × Nat) × List Nat)
    (submission : Submission) : List (Nat × Nat) × List Nat :=
  let pairs :=
    match DB.getTask db submission.task_id with
    | none => acc.1
    | some task => scanDatasets db st submission acc.1 task.datasets_to_judge
  let toks :=
    if submission.tokened && !(decide (submission.id ∈ st.submissions_tokened)) then
      setAdd acc.2 submission.id
    else acc.2
  (pairs, toks)

/-- One round of the catch-up scan.  Returns the new state and whether the
drain timeout (`score_old_submissions`) was scheduled. -/
def search_jobs_not_done (db : DB) (st : SSState) : Except String (SSState × Bool) :=
  if st.scoring_old_submission then .ok (st, false)
  else
  match DB.getContest db st.contest_id with
  | none => .error "AttributeError"
  | some contest =>
    let scan := (submissionsOfContest db contest.id).foldl (scanStep db st) ([], [])
    let new_s := scan.1.length
    let new_t := scan.2.length
    let old_s := st.submission_results_to_score.length
    let old_t := st.submissions_to_token.length
    if new_s + new_t > 0 then
      .ok ({ st with
              submission_results_to_score := setUnion st.submission_results_to_score scan.1,
              submissions_to_token := setUnion st.submissions_to_token scan.2 },
           old_s + old_t == 0)
    else .ok (st, false)

/-! ### Bounded drain: `score_old_submissions` (lines 271-305) -/

/-- The scoring half of one drain step: pop `n` pairs off the head of the
backlog (`set.pop()` picks an arbitrary element; the model pops the head) and
run `new_evaluation` on each. -/
def drainScores (cfg : Config) : Nat → DB → SSState → Except String (DB × SSState)
  | 0, db, st => .ok (db, st)
  | n + 1, db, st =>
    match st.submission_results_to_score with
    | [] => .error "KeyError"  -- set.pop() on an empty set; unreachable, n ≤ size
    | (submission_id, dataset_id) :: rest =>
      match new_evaluation cfg db { st with submission_results_to_score := rest }
              submission_id dataset_id with
      | .error e => .error e
      | .ok (db', st') => drainScores cfg n db' st'

/-- The tokening half of one drain step. -/
def drainTokens (cfg : Config) : Nat → DB → SSState → Except String (DB × SSState)
  | 0, db, st => .ok (db, st)
  | n + 1, db, st =>
    match st.submissions_to_token with
    | [] => .error "KeyError"  -- set.pop() on an empty set; unreachable, n ≤ size
    | submission_id :: rest =>
      match submission_tokened cfg db { st with submissions_to_token := rest }
              submission_id with
      | .error e => .error e
      | .ok st' => drainTokens cfg n db st'

/-- One drain step.  Returns the new database and state, and whether the step
asked to be rescheduled (the Python return value: `True` keeps the timeout
alive, `False` stops it). -/
def score_old_submissions (cfg : Config) (db : DB) (st : SSState) :
    Except String (DB × SSState × Bool) :=
  let st0 := { st with scoring_old_submission := true }
  let to_score := st0.submission_results_to_score.length
  let to_token := st0.submissions_to_token.length
  let to_score_now := if to_score < 4 then to_score else 4
  let to_token_now := if to_token < 16 then to_token else 16
  match drainScores cfg to_score_now db st0 with
  | .error e => .error e
  | .ok (db1, st1) =>
    if to_score - to_score_now > 0 then .ok (db1, st1, true)
    else
      match drainTokens cfg to_token_now db1 st1 with
      | .error e => .error e
      | .ok (db2, st2) =>
        if to_token - to_token_now > 0 then .ok (db2, st2, true)
        else .ok (db2, { st2 with scoring_old_submission := false }, false)

/-! ### Invalidation: `invalidate_submission` (lines 614-673) -/

/-- Modelled from the spec: `get_submission_results` (cms.service, not under
src/), following the call-site docstring (lines 620-635) — the
SubmissionResults matching every given non-None filter; the contest filter is
passed only when the four others are all None. -/
def get_submission_results (db : DB)
    (contest_id user_id task_id submission_id dataset_id : Option Nat) :
    List SubmissionResult :=
  db.results.filter (fun sr =>
    let sub := DB.getSubmission db sr.submission_id
    let task := sub.bind (fun s => DB.getTask db s.task_id)
    (match contest_id with
     | none => true
     | some cid => (task.map (fun t => t.contest_id == cid)).getD false) &&
    (match user_id with
     | none => true
     | some uid => (sub.map (fun s => s.user_id == uid)).getD false) &&
    (match task_id with
     | none => true
     | some tid => (sub.map (fun s => s.task_id == tid)).getD false) &&
    (match submission_id with
     | none => true
     | some sid => sr.submission_id == sid) &&
    (match dataset_id with
     | none => true
     | some did => sr.dataset_id == did))

/-- Modelled from the spec: `SubmissionResult.invalidate_score` (cms.db, not
under src/) — clears the stored score and detail fields. -/
def SubmissionResult.invalidate_score (sr : SubmissionResult) : SubmissionResult :=
  { sr with score := none, public_score := none, score_details := none,
            public_score_details := none, ranking_score_details := none }

/-- The loop of `invalidate_submission` (lines 657-666): for each matching
result that is evaluated, clear its score fields in the store and collect its
(submission, dataset) pair for re-queueing. -/
def invalidateFold (rs : List SubmissionResult) (acc : DB × List (Nat × Nat)) :
    DB × List (Nat × Nat) :=
  match rs with
  | [] => acc
  | sr :: rest =>
    invalidateFold rest
      (if sr.evaluated then
        (DB.setResult acc.1 (SubmissionResult.invalidate_score sr),
         setAdd acc.2 (sr.submission_id, sr.dataset_id))
      else acc)

/-- `invalidate_submission`.  Returns the new database and state, and whether
the drain timeout (`score_old_submissions`) was scheduled. -/
def invalidate_submission (db : DB) (st : SSState)
    (submission_id dataset_id user_id task_id : Option Nat) : DB × SSState × Bool :=
  let contest_arg :=
    if submission_id = none ∧ dataset_id = none ∧ user_id = none ∧ task_id = none then
      some st.contest_id
    else none
  let submission_results := get_submission_results db contest_arg user_id task_id
    submission_id dataset_id
  if submission_results.length = 0 then (db, st, false)
  else
    let step := invalidateFold submission_results (db, [])
    let old_s := st.submission_results_to_score.length
    let old_t := st.submissions_to_token.length
    (step.1,
     { st with submission_results_to_score :=
         setUnion st.submission_results_to_score step.2 },
     old_s + old_t == 0)

/-! ### Dispatch: `initialize` and `dispatch_operations` (lines 307-433) -/

/-- Transport oracle for one flush round: whether the PUT of `resource` to
`ranking` raises `CannotSendError` (connection error or non-200 status). -/
def TransportFails : Type := String → String → Bool

/-- The `contests/<id>` PUT body. -/
structure ContestPut where
  name : String
  /-- The `"begin"` key (an integer timestamp). -/
  begin_ : Int
  /-- The `"end"` key (an integer timestamp). -/
  end_ : Int
  score_precision : Nat
deriving DecidableEq, Repr

/-- One entry of the `users/` PUT body (`team` is the constant `None`). -/
structure UserPut where
  f_name : String
  l_name : String
deriving DecidableEq, Repr

/-- One entry of the `tasks/` PUT body (`extra_headers` is the constant `[]`,
`max_score` the constant `100.0`). -/
structure TaskPut where
  name : String
  contest : String
  score_precision : Nat
  order : Nat
  short_name : String
deriving DecidableEq, Repr

/-- A successful PUT observed by a ranking endpoint. -/
inductive PutEvent
  | contest (ranking : String) (resource : String) (data : ContestPut)
  | users (ranking : String) (data : Dict String UserPut)
  | tasks (ranking : String) (data : Dict String TaskPut)
  | submissions (ranking : String) (data : Dict String SubmissionPut)
  | subchanges (ranking : String) (data : Dict String SubchangePut)
deriving DecidableEq, Repr

/-- `ScoringService.initialize` (lines 378-433): build and send the contest,
users and tasks payloads as three sequential PUTs, aborting at the first
failure; an unknown contest id raises `KeyError`. -/
def initialize_ranking (db : DB) (contest_id : Nat) (tf : TransportFails)
    (ranking : String) : Except String (List PutEvent) :=
  match DB.getContest db contest_id with
  | none => .error "KeyError"  -- "Received request for unexistent contest id"
  | some contest =>
    let contest_url := "contests/" ++ encode_id contest.name
    let contest_data : ContestPut :=
      { name := contest.description, begin_ := contest.start, end_ := contest.stop,
        score_precision := contest.score_precision }
    let users : Dict String UserPut :=
      (db.users.filter (fun u => u.contest_id == contest.id && !u.hidden)).foldl
        (fun d u => dinsert d (encode_id u.username)
          { f_name := u.first_name, l_name := u.last_name }) []
    let tasks : Dict String TaskPut :=
      (db.tasks.filter (fun t => t.contest_id == contest.id)).foldl
        (fun d t => dinsert d (encode_id t.name)
          { name := t.title, contest := encode_id contest.name,
            score_precision := t.score_precision, order := t.num,
            short_name := t.name }) []
    if tf ranking contest_url then .error "CannotSendError"
    else if tf ranking "users/" then .error "CannotSendError"
    else if tf ranking "tasks/" then .error "CannotSendError"
    else .ok [PutEvent.contest ranking contest_url contest_data,
              PutEvent.users ranking users,
              PutEvent.tasks ranking tasks]

/-- The first loop of `dispatch_operations` (lines 326-337): try to run
`initialize` for every ranking of the swapped-out initialize queue; a failure
re-queues the ranking and marks it failed for the rest of the round.  Returns
the re-queued rankings, the failed set and the successful PUTs. -/
def initStage (db : DB) (contest_id : Nat) (tf : TransportFails) :
    List String → List String → List String × List String × List PutEvent
  | [], failed => ([], failed, [])
  | ranking :: rest, failed =>
    if ranking ∈ failed then
      let r := initStage db contest_id tf rest failed
      (ranking :: r.1, r.2.1, r.2.2)
    else
      match initialize_ranking db contest_id tf ranking with
      | .ok evs =>
        let r := initStage db contest_id tf rest failed
        (r.1, r.2.1, evs ++ r.2.2)
      | .error _ =>
        let r := initStage db contest_id tf rest (failed ++ [ranking])
        (ranking :: r.1, r.2.1, r.2.2)

/-- The second and third loops of `dispatch_operations` (lines 339-363): for
every (ranking, batch) of a swapped-out queue, skip and keep the batch if the
ranking already failed this round, otherwise attempt the PUT; a failure keeps
the batch and marks the ranking failed.  Returns the kept queue, the failed
set and the delivered batches. -/
def processQueue {δ : Type} (fail : String → Bool) :
    Dict String (Dict String δ) → List String →
    Dict String (Dict String δ) × List String × List (String × Dict String δ)
  | [], failed => ([], failed, [])
  | (ranking, data) :: rest, failed =>
    if ranking ∈ failed then
      let r := processQueue fail rest failed
      ((ranking, data) :: r.1, r.2.1, r.2.2)
    else if fail ranking then
      let r := processQueue fail rest (failed ++ [ranking])
      ((ranking, data) :: r.1, r.2.1, r.2.2)
    else
      let r := processQueue fail rest failed
      (r.1, r.2.1, (ranking, data) :: r.2.2)

/-- The final merge of `dispatch_operations` (lines 366-373): for every
ranking of either queue, `new.setdefault(r, dict()).update(concurrent.get(r,
dict()))` — the concurrently-enqueued entry wins on a shared key. -/
def mergeQueues {δ : Type} (new_q conc : Dict String (Dict String δ)) :
    Dict String (Dict String δ) :=
  (dkeys conc ++ dkeys new_q).foldl
    (fun acc ranking =>
      dinsert acc ranking (dupdate (dgetD acc ranking []) (dgetD conc ranking [])))
    new_q

/-- The result of one flush round. -/
structure DispatchResult where
  initialize_queue : List String
  submission_queue : Dict String (Dict String SubmissionPut)
  subchange_queue : Dict String (Dict String SubchangePut)
  events : List PutEvent

/-- One round of `dispatch_operations` (lines 307-376).  The swapped-out
queues are `init_q`, `sub_q`, `sch_q`; `conc_init`, `conc_sub`, `conc_sch` are
the contents of the live queues at the final merge — everything enqueued
concurrently while the round's PUTs were in flight (the queues were emptied at
the swap). -/
def dispatch_operations (db : DB) (contest_id : Nat) (tf : TransportFails)
    (init_q : List String)
    (sub_q : Dict String (Dict String SubmissionPut))
    (sch_q : Dict String (Dict String SubchangePut))
    (conc_init : List String)
    (conc_sub : Dict String (Dict String SubmissionPut))
    (conc_sch : Dict String (Dict String SubchangePut)) : DispatchResult :=
  let s1 := initStage db contest_id tf init_q []
  let s2 := processQueue (fun r => tf r "submissions/") sub_q s1.2.1
  let s3 := processQueue (fun r => tf r "subchanges/") sch_q s2.2.1
  { initialize_queue := setUnion conc_init s1.1,
    submission_queue := mergeQueues s2.1 conc_sub,
    subchange_queue := mergeQueues s3.1 conc_sch,
    events := s1.2.2 ++ (s2.2.2.map (fun p => PutEvent.submissions p.1 p.2))
                ++ (s3.2.2.map (fun p => PutEvent.subchanges p.1 p.2)) }

/-! ### The TPS task loader (src/cmscontrib/loaders/tps.py) -/

namespace Tps

/-- `json.load` of a file that exists: either a parse failure (`ValueError`)
or the parsed value.  A required key missing from the parsed object makes the
loader raise `KeyError` at first access; the model folds required keys
(`code`, `title`, `type`) into the parsed structure and keeps every key whose
absence the source tolerates or checks as an `Option` field. -/
inductive JsonParse (α : Type)
  | malformed
  | ok (a : α)

/-- The value of the `task_type_params` key: `None`/empty string (treated as
`'{}'`), a string that does not parse as JSON, or a parsed JSON object with
opaque values. -/
inductive TTPValue
  | empty
  | invalid
  | parsed (d : Dict String String)

/-- The parsed `problem.json`. -/
structure ProblemData where
  code : String
  title : String
  problem_label : Option String
  /-- The raw `data['type']` string. -/
  ptype : String
  feedback_level : Option String
  max_submission_number : Option Nat
  max_user_test_number : Option Nat
  /-- Outer option: key present; inner: the value may be JSON `null`. -/
  min_submission_interval : Option (Option Int)
  min_user_test_interval : Option (Option Int)
  score_precision : Option Int
  score_mode : Option String
  ignore_datasets : Option Bool
  ignore_checker : Option Bool
  add_optional_name : Option Bool
  /-- A float in the source, carried opaquely. -/
  time_limit : Option Int
  memory_limit : Option Int
  /-- `none` when the `task_type_params` key is absent (`KeyError`). -/
  task_type_params : Option TTPValue

/-- One entry of `subtasks.json`'s `subtasks` object.  `score` is the result
of `int(...)` (`none`: unparseable, `ValueError`); `regex` is the `"regex"`
key (`none`: absent, `KeyError` when accessed). -/
structure SubtaskData where
  score : Option Int
  regex : Option String

/-- The parsed `subtasks.json`; `subtasks = none` models a missing
`'subtasks'` key. -/
structure SubtasksData where
  subtasks : Option (Dict String SubtaskData)

/-- The filesystem as the loader observes it.  File-cacher digests are
modelled as the stored file's path.  `fuel` bounds the directory walk of
`get_file_list` (the source recurses through a finite directory tree). -/
structure FS where
  exists_paths : List String
  listdir : String → List String
  isdir : String → Bool
  problem_json : JsonParse ProblemData
  subtasks_json : JsonParse SubtasksData
  /-- The rows of `tests/mapping`, already stripped and split on spaces. -/
  mapping_rows : List (List String)
  fuel : Nat

/-- `os.path.exists`. -/
def pexists (fs : FS) (p : String) : Bool := decide (p ∈ fs.exists_paths)

/-- `os.path.join` (for the relative components the loader uses). -/
def pjoin (a b : String) : String := if a = "" then b else a ++ "/" ++ b

/-- `s[-n:]`. -/
def strTakeRight (s : String) (n : Nat) : String :=
  String.mk (s.data.drop (s.data.length - n))

/-- `s[:-n]`. -/
def strDropRight (s : String) (n : Nat) : String :=
  String.mk (s.data.take (s.data.length - n))

/-- `os.path.basename`. -/
def basename (p : String) : String :=
  (p.splitOn "/").getLastD p

/-- `os.path.splitext`: split at the last dot. -/
def splitext (f : String) : String × String :=
  let parts := f.splitOn "."
  if parts.length ≤ 1 then (f, "")
  else (String.intercalate "." parts.dropLast, "." ++ parts.getLastD "")

/-- `data["type"][0].upper() + data["type"][1:]` (for a nonempty string). -/
def capitalizeFirst (s : String) : String :=
  match s.data with
  | [] => ""
  | c :: rest => String.mk (c.toUpper :: rest)

/-- Insertion into a `sorted(...)` list of strings. -/
def insertStr (x : String) : List String → List String
  | [] => [x]
  | y :: ys => if x ≤ y then x :: y :: ys else y :: insertStr x ys

/-- Python `sorted` on strings (code-point lexicographic). -/
def sortStrings (l : List String) : List String :=
  l.foldl (fun acc x => insertStr x acc) []

/-- A statement attached to the task (digest modelled as the file path). -/
structure Statement where
  language : String
  digest : String
deriving DecidableEq, Repr

structure Testcase where
  codename : String
  public : Bool
  input_digest : String
  output_digest : String
deriving DecidableEq, Repr

/-- One row of the `GroupMin` parameters: `[score, testcases]`, plus the
optional name when `add_optional_name` is set. -/
structure GroupRow where
  score : Int
  testcases : String
  optional_name : Option String
deriving DecidableEq, Repr

inductive ScoreTypeParams
  | sum (per_testcase : ℚ)
  | groupMin (rows : List GroupRow)
deriving DecidableEq, Repr

structure TpsDataset where
  description : String
  autojudge : Bool
  time_limit : Option Int
  memory_limit : Option Int
  /-- Manager name ↦ digest. -/
  managers : Dict String String
  task_type : String
  /-- The parameter list, entries carried opaquely as strings. -/
  task_type_parameters : List String
  testcases : Dict String Testcase
  score_type : String
  score_type_parameters : ScoreTypeParams
deriving DecidableEq, Repr

structure TpsTask where
  name : String
  title : String
  statements : Dict String Statement
  primary_statements : List String
  /-- Attachment filename ↦ digest. -/
  attachments : Dict String String
  submission_format : List String
  feedback_level : Option String
  token_mode : String
  max_submission_number : Option Nat
  max_user_test_number : Option Nat
  min_submission_interval : Option (Option Int)
  min_user_test_interval : Option (Option Int)
  score_precision : Option Int
  score_mode : Option String
  active_dataset : Option TpsDataset
deriving DecidableEq, Repr

/-- `get_file_list` (lines 305-313): recursive directory walk collecting file
paths relative to `pfx`, skipping `except_files`. -/
def get_file_list (fs : FS) : Nat → String → String → List String → List String
  | 0, _, _, _ => []
  | fuel + 1, files_dir, pfx, except_files =>
    (fs.listdir files_dir).foldl
      (fun rt filename =>
        if filename ∈ except_files then rt
        else if fs.isdir (pjoin files_dir filename) then
          rt ++ get_file_list fs fuel (pjoin files_dir filename) (pjoin pfx filename)
            except_files
        else rt ++ [pjoin pfx filename])
      []

/-- `_get_task_type_parameters` (lines 68-113). -/
def get_task_type_params (fs : FS) (path : String) (data : ProblemData)
    (task_type : String) (evaluation_param : String) : Except String (List String) :=
  match data.task_type_params with
  | none => .error "KeyError"
  | some ttp =>
    match (match ttp with
           | .empty => some ([] : Dict String String)
           | .invalid => none
           | .parsed d => some d) with
    | none => .error "ValueError"  -- json.loads failure
    | some task_type_parameters =>
      let par_prefix := "task_type_parameters_" ++ task_type
      if task_type = "Batch" then
        let par_compilation := par_prefix ++ "_compilation"
        let par_input := par_prefix ++ "_io_0_inputfile"
        let par_output := par_prefix ++ "_io_1_outputfile"
        let par_user_managers := par_prefix ++ "_user_managers"
        let compilation := dgetD task_type_parameters par_compilation "grader"
        let input_file := dgetD task_type_parameters par_input ""
        let output_file := dgetD task_type_parameters par_output ""
        let user_managers :=
          match dget task_type_parameters par_user_managers with
          | some v => v
          | none =>
            if pexists fs (pjoin (pjoin path "grader") "graderlib.pas") then
              "[\\\"grader.cpp\\\", \\\"grader.java\\\", \\\"graderlib.pas\\\"]"
            else "[\\\"grader.%l\\\"]"
        let _ := user_managers  -- stored back into the dict, not returned
        .ok [compilation, input_file, output_file, evaluation_param]
      else if task_type = "Communication" then
        let par_processes := par_prefix ++ "_num_processes"
        let processes := dgetD task_type_parameters par_processes "1"
        .ok [processes, "stub", "fifo_io"]
      else if task_type = "TwoSteps" ∨ task_type = "OutputOnly" then
        .ok [evaluation_param]
      else .ok []

/-- The per-subtask loop of the `GroupMin` branch (lines 396-414).
`idx` is `subtask_no` (already incremented for the current entry). -/
def buildGroupRows (use_mapping add_optional_name : Bool)
    (mapping_data : Dict String (List String)) :
    Nat → List (String × SubtaskData) → Except String (List GroupRow)
  | _, [] => .ok []
  | idx, (subtask, sdata) :: rest =>
    match sdata.score with
    | none => .error "ValueError"  -- int(subtask_data["score"])
    | some score =>
      match (if use_mapping then
              let codenames := sortStrings (
                ((dgetD mapping_data subtask []).map
                  (fun t => "^" ++ ((t.splitOn "-").headD "") ++ "\\-")).dedup)
              let joined := String.intercalate "|" codenames
              .ok (if joined = "" then "|NO_TESTCASES_AVAILABLE" else joined)
            else
              match sdata.regex with
              | none => (.error "KeyError" : Except String String)
              | some r => .ok r) with
      | .error e => .error e
      | .ok testcases_re =>
        let optional_name :=
          if idx = 0 ∧ score = 0 then "Samples" else "Subtask " ++ toString idx
        match buildGroupRows use_mapping add_optional_name mapping_data (idx + 1) rest with
        | .error e => .error e
        | .ok rows =>
          .ok ({ score := score, testcases := testcases_re,
                 optional_name := if add_optional_name then some optional_name else none } :: rows)

/-- `TpsTaskLoader.get_task` (lines 115-420).  `.ok none` is the bare
`return` (no Task) on a missing testcase output; `.error` is a raised
exception. -/
def get_task (fs : FS) (path : String) (get_statement : Bool) :
    Except String (Option TpsTask) :=
  let json_src := pjoin path "problem.json"
  if pexists fs json_src = false then .error "IOError"  -- 'No task found'
  else
  match fs.problem_json with
  | .malformed => .error "ValueError"
  | .ok data =>
    let name := data.code
    let title :=
      match data.problem_label with
      | some lbl => lbl ++ ". " ++ data.title
      | none => data.title
    -- Statements
    let statements_dir := pjoin path "statement"
    let stm : Dict String Statement × List String :=
      if get_statement && pexists fs statements_dir then
        ((fs.listdir statements_dir).filter (fun f => strTakeRight f 4 = ".pdf")).foldl
          (fun acc f =>
            let language := strDropRight f 4
            (dinsert acc.1 language { language := language, digest := pjoin statements_dir f },
             if language = "en_US" then ["en_US"] else acc.2))
          ([], [])
      else ([], [])
    -- Attachments
    let attachments_path := pjoin path (name ++ ".zip")
    let attachments : Dict String String :=
      if get_statement && pexists fs attachments_path then
        [(name ++ ".zip", attachments_path)]
      else []
    -- data["type"] = data["type"][0].upper() + data["type"][1:]
    if data.ptype = "" then .error "IndexError"
    else
    let dtype := capitalizeFirst data.ptype
    -- Testcase codenames
    let testcases_dir := pjoin path "tests"
    let testcase_codenames : List String :=
      if pexists fs testcases_dir = false then []  -- warning 'Testcase folder was not found'
      else sortStrings (((fs.listdir testcases_dir).filter
            (fun f => strTakeRight f 3 = ".in")).map (fun f => strDropRight f 3))
    let submission_format : List String :=
      if dtype = "OutputOnly" then testcase_codenames.map (fun c => c ++ ".out")
      else if dtype = "Notice" then []
      else [name ++ ".%l"]
    let task : TpsTask :=
      { name := name, title := title, statements := stm.1,
        primary_statements := stm.2, attachments := attachments,
        submission_format := submission_format,
        feedback_level := data.feedback_level, token_mode := "disabled",
        max_submission_number := data.max_submission_number,
        max_user_test_number := data.max_user_test_number,
        min_submission_interval := data.min_submission_interval,
        min_user_test_interval := data.min_user_test_interval,
        score_precision := data.score_precision, score_mode := data.score_mode,
        active_dataset := none }
    let ignore_datasets := data.ignore_datasets.getD false
    if ignore_datasets then .ok (some task)  -- 'Dataset loading skipped.'
    else
    -- Dataset limits (required keys for compiled task types)
    match (if dtype ≠ "OutputOnly" ∧ dtype ≠ "Notice" then
            match data.time_limit, data.memory_limit with
            | some t, some m => (.ok (some t, some m) : Except String (Option Int × Option Int))
            | _, _ => .error "KeyError"
          else .ok (none, none)) with
    | .error e => .error e
    | .ok limits =>
    -- Checker
    let checker_dir := pjoin path "checker"
    let checker_src := pjoin checker_dir "checker.cpp"
    let ignore_checker := data.ignore_checker.getD false
    let checker : Dict String String × String :=
      if ignore_checker then ([], "diff")
      else if pexists fs checker_src then
        ([("checker", pjoin checker_dir "checker")], "comparator")
      else ([], "diff")
    match get_task_type_params fs path data dtype checker.2 with
    | .error e => .error e
    | .ok ttp =>
    -- Graders
    let graders_dir := pjoin path "grader"
    let managers1 :=
      if dtype = "TwoSteps" then
        let pas_manager := name ++ "lib.pas"
        if pexists fs (pjoin graders_dir pas_manager) = false then
          dinsert checker.1 pas_manager ("empty:" ++ pas_manager)
        else checker.1
      else checker.1
    let graders_list :=
      if pexists fs graders_dir = false then []  -- warning 'Grader folder was not found'
      else get_file_list fs fs.fuel graders_dir "" ["manager.cpp"]
    let managers2 := graders_list.foldl
      (fun m grader_name =>
        let base := basename grader_name
        let gname :=
          if dtype = "Communication" ∧ (splitext base).1 = "grader" then
            "stub" ++ (splitext base).2
          else base
        dinsert m gname (pjoin graders_dir grader_name))
      managers1
    let manager_src := pjoin graders_dir "manager.cpp"
    let managers3 :=
      if pexists fs manager_src then dinsert managers2 "manager" (pjoin graders_dir "manager")
      else managers2
    -- Testcases: a listed input without its output logs critical and returns None
    if testcase_codenames.any
        (fun c => !(pexists fs (pjoin testcases_dir (c ++ ".out")))) then
      .ok none  -- 'Could not find the output file for testcase ...', 'Aborting...'
    else
    let testcases : Dict String Testcase := testcase_codenames.foldl
      (fun tc codename =>
        dinsert tc codename
          { codename := codename, public := true,
            input_digest := pjoin testcases_dir (codename ++ ".in"),
            output_digest := pjoin testcases_dir (codename ++ ".out") })
      []
    -- Score type
    let subtasks_json_src := pjoin path "subtasks.json"
    let mkDataset (score_type : String) (params : ScoreTypeParams) : TpsDataset :=
      { description := "Default", autojudge := true,
        time_limit := limits.1, memory_limit := limits.2, managers := managers3,
        task_type := dtype, task_type_parameters := ttp, testcases := testcases,
        score_type := score_type, score_type_parameters := params }
    if pexists fs subtasks_json_src = false then
      let number_tests := max testcase_codenames.length 1
      let ds := mkDataset "Sum" (.sum ((100 : ℚ) / (number_tests : ℚ)))
      .ok (some { task with active_dataset := some ds })
    else
      match fs.subtasks_json with
      | .malformed => .error "ValueError"
      | .ok sd =>
        match sd.subtasks with
        | none => .error "KeyError"
        | some subtasks =>
          let mapping_src := pjoin (pjoin path "tests") "mapping"
          let use_mapping := pexists fs mapping_src
          -- mapping_data[row[0]].append(row[1]) raises KeyError on an unknown subtask
          if use_mapping && fs.mapping_rows.any
              (fun row => decide (row.length = 2) &&
                !(decide ((row.headD "") ∈ dkeys subtasks))) then
            .error "KeyError"
          else
          let mapping_data : Dict String (List String) :=
            if use_mapping then
              fs.mapping_rows.foldl
                (fun m row =>
                  match row with
                  | [a, b] => dinsert m a (dgetD m a [] ++ [b])
                  | _ => m)
                ((dkeys subtasks).foldl (fun m k => dinsert m k []) [])
            else []
          let add_optional_name := data.add_optional_name.getD false
          match buildGroupRows use_mapping add_optional_name mapping_data 0 subtasks with
          | .error e => .error e
          | .ok rows =>
            let ds := mkDataset "GroupMin" (.groupMin rows)
            .ok (some { task with active_dataset := some ds })

end Tps

/-! ### Example fixtures -/

def exContest : Contest :=
  { id := 1, name := "ctst", description := "Contest", start := 0, stop := 3600,
    score_precision := 2 }

def exTask : Task :=
  { id := 1, name := "tsk", title := "Task", num := 0, score_precision := 2,
    contest_id := 1, active_dataset := 1, datasets := [1, 2],
    datasets_to_judge := [1, 2] }

def exDataset1 : Dataset := { id := 1, task_id := 1 }

def exDataset2 : Dataset := { id := 2, task_id := 1 }

def exHiddenUser : User :=
  { id := 1, username := "alice", first_name := "A", last_name := "L",
    hidden := true, contest_id := 1 }

def exUser : User :=
  { id := 2, username := "bob", first_name := "B", last_name := "M",
    hidden := false, contest_id := 1 }

def exSubmissionHidden : Submission :=
  { id := 1, user_id := 1, task_id := 1, timestamp := 1000, token := none }

def exSubmission : Submission :=
  { id := 2, user_id := 2, task_id := 1, timestamp := 1000,
    token := some { timestamp := 1500 } }

def exResult11 : SubmissionResult :=
  { submission_id := 1, dataset_id := 1, compilation_outcome := some "ok",
    evaluated := true, evaluations := [], score := some 77, public_score := some 70,
    score_details := some "sd", public_score_details := some "psd",
    ranking_score_details := none }

def exResult21 : SubmissionResult :=
  { submission_id := 2, dataset_id := 1, compilation_outcome := some "ok",
    evaluated := true, evaluations := [], score := some 60, public_score := some 55,
    score_details := some "sd2", public_score_details := some "psd2",
    ranking_score_details := none }

def exResult22 : SubmissionResult :=
  { submission_id := 2, dataset_id := 2, compilation_outcome := some "ok",
    evaluated := true, evaluations := [], score := none, public_score := none,
    score_details := none, public_score_details := none,
    ranking_score_details := none }

def exScoreOutput : ScoreOutput :=
  { score := 100, public_score := 50, details := "d", public_details := "pd",
    ranking_details := "rd" }

def exDB : DB :=
  { contests := [exContest], tasks := [exTask], datasets := [exDataset1, exDataset2],
    users := [exHiddenUser, exUser], submissions := [exSubmissionHidden, exSubmission],
    results := [exResult11, exResult21, exResult22],
    compute_score := fun _ _ => exScoreOutput, parse_json := fun _ => none }

def exCfg : Config := { rankings := ["http://r1/"] }

def exState : SSState :=
  { contest_id := 1, submission_results_to_score := [], submissions_to_token := [],
    scoring_old_submission := false, submission_results_scored := [],
    submissions_tokened := [], initialize_queue := [], submission_queue := [],
    subchange_queue := [] }

/-! ### C1 -/

/-- C1: the claim says no operation of the service ever creates a dispatch
entry for a hidden user's submission.  `new_evaluation` and
`submission_tokened` do skip hidden users, but `dataset_updated` iterates over
every submission of the task with no hidden check (lines 691-726): on a task
whose only submissions are by user `alice` with `hidden = True`, it enqueues a
subchange entry for her submission into the ranking endpoint's queue.  The
code contradicts the privacy invariant its own paths enforce everywhere else
(`initialize` does not even announce hidden users to the ranking), so this is
recorded as a code bug; this theorem evaluates the code at the failing
input. -/
theorem c1_dataset_updated_dispatches_hidden_user :
    exHiddenUser.hidden = true ∧
    DB.getSubmission exDB 1 = some exSubmissionHidden ∧
    exSubmissionHidden.user_id = exHiddenUser.id ∧
    (dataset_updated exCfg exDB exState 1).map
        (fun st' => dget (dgetD st'.subchange_queue "http://r1/" []) "10001s") =
      .ok (some { submission := "1", time := 1000, score := some 77, token := none,
                  extra := none }) :=
  ⟨rfl, rfl, rfl, rfl⟩

/-! ### C2 -/

def c2db : DB :=
  { contests := [], tasks := [], datasets := [], users := [], submissions := [],
    results := [], compute_score := fun _ _ => exScoreOutput,
    parse_json := fun _ => none }

def c2tf : TransportFails := fun _ _ => false

def c2put : SubmissionPut := { user := "u", task := "t", time := 0 }

def c2sub : Dict String (Dict String SubmissionPut) := [("http://r2/", [("k", c2put)])]

/-- C2 counterexample: with an unknown contest id, `initialize` raises
`KeyError`, but the flush round's bare `except:` (lines 331-337) swallows it:
`dispatch_operations` completes normally, merely re-queues the endpoint, and
still delivers the other endpoint's pending submissions — the service does
not fail.  This falsifies the claim that the error is not swallowed and that
the round does not merely re-queue that endpoint and continue. -/
theorem c2_unknown_contest_swallowed :
    DB.getContest c2db 1 = none ∧
    initialize_ranking c2db 1 c2tf "http://r1/" = .error "KeyError" ∧
    (dispatch_operations c2db 1 c2tf ["http://r1/"] c2sub [] [] [] []).initialize_queue
      = ["http://r1/"] ∧
    (dispatch_operations c2db 1 c2tf ["http://r1/"] c2sub [] [] [] []).events
      = [PutEvent.submissions "http://r2/" [("k", c2put)]] ∧
    (dispatch_operations c2db 1 c2tf ["http://r1/"] c2sub [] [] [] []).submission_queue
      = [] :=
  ⟨rfl, rfl, rfl, rfl, rfl⟩

/-- Every ranking of the initialize queue is re-queued when the contest id is
unknown (every `initialize` attempt raises, every attempt is caught). -/
theorem initStage_requeue_of_no_contest (db : DB) (cid : Nat) (tf : TransportFails)
    (r : String) (hc : DB.getContest db cid = none) :
    ∀ q failed, r ∈ q → r ∈ (initStage db cid tf q failed).1 := by
  intro q
  induction q with
  | nil => intro failed h; exact absurd h (List.not_mem_nil r)
  | cons rk rest ih =>
      intro failed h
      have hinit : initialize_ranking db cid tf rk = .error "KeyError" := by
        unfold initialize_ranking
        rw [hc]
      rcases List.mem_cons.mp h with rfl | h'
      · by_cases hf : r ∈ failed
        · simp only [initStage, if_pos hf]
          exact List.mem_cons_self _ _
        · simp only [initStage, if_neg hf, hinit]
          exact List.mem_cons_self _ _
      · by_cases hf : rk ∈ failed
        · simp only [initStage, if_pos hf]
          exact List.mem_cons_of_mem _ (ih failed h')
        · simp only [initStage, if_neg hf, hinit]
          exact List.mem_cons_of_mem _ (ih (failed ++ [rk]) h')

/-- C2 (amended): an unknown contest id while building the initialize payload
makes `initialize` raise `KeyError`, but the flush round catches it like any
transport failure: the endpoint is marked failed and re-queued for the next
round, and the service continues — the error is not fatal to the service. -/
theorem c2_amended_unknown_contest_requeues
    (db : DB) (cid : Nat) (tf : TransportFails)
    (init_q : List String) (sub_q : Dict String (Dict String SubmissionPut))
    (sch_q : Dict String (Dict String SubchangePut))
    (conc_init : List String) (conc_sub : Dict String (Dict String SubmissionPut))
    (conc_sch : Dict String (Dict String SubchangePut)) (r : String)
    (hc : DB.getContest db cid = none) (hr : r ∈ init_q) :
    initialize_ranking db cid tf r = .error "KeyError" ∧
    r ∈ (dispatch_operations db cid tf init_q sub_q sch_q conc_init conc_sub
          conc_sch).initialize_queue := by
  constructor
  · unfold initialize_ranking
    rw [hc]
  · exact mem_setUnion.mpr
      (Or.inr (initStage_requeue_of_no_contest db cid tf r hc init_q [] hr))

/-- Witness for C2's amended theorem at a concrete input. -/
theorem c2_amended_witness :
    initialize_ranking c2db 1 c2tf "http://r1/" = .error "KeyError" ∧
    "http://r1/" ∈ (dispatch_operations c2db 1 c2tf ["http://r1/"] c2sub [] [] [] []).initialize_queue :=
  c2_amended_unknown_contest_requeues c2db 1 c2tf ["http://r1/"] c2sub [] [] [] []
    "http://r1/" rfl (List.mem_cons_self _ _)

/-! ### C5 -/

/-- C5: on a `new_evaluation` call whose dataset is not the task's active
dataset, with all preconditions met (result exists and compiled, evaluated if
compilation succeeded, user not hidden), the scorer's score, public score and
the three detail fields are stored on the result row (`scoredResult`), the
ledger marks the pair scored (`setAdd` on `submission_results_scored`), and
the state is otherwise unchanged — in particular no submission or subchange
entry is added to any endpoint's queue. -/
theorem c5_inactive_dataset_no_dispatch
    (cfg : Config) (db : DB) (st : SSState) (submission_id dataset_id : Nat)
    (submission : Submission) (dataset : Dataset) (user : User) (task : Task)
    (sr : SubmissionResult)
    (hsub : DB.getSubmission db submission_id = some submission)
    (hds : DB.getDataset db dataset_id = some dataset)
    (hsr : DB.getResult db submission_id dataset_id = some sr)
    (hcomp : sr.compiled = true)
    (heval : sr.compilation_outcome = some "ok" → sr.evaluated = true)
    (huser : DB.getUser db submission.user_id = some user)
    (hhid : user.hidden = false)
    (htask : DB.getTask db submission.task_id = some task)
    (hact : dataset_id ≠ task.active_dataset) :
    new_evaluation cfg db st submission_id dataset_id =
      .ok (DB.setResult db (scoredResult sr
             (db.compute_score dataset_id (scoreInput submission_id submission sr user))),
           { st with submission_results_scored :=
               setAdd st.submission_results_scored (submission_id, dataset_id) }) := by
  have h2 : ¬(sr.compilation_outcome = some "ok" ∧ sr.evaluated = false) := by
    rintro ⟨h1, hf⟩
    rw [heval h1] at hf
    exact Bool.noConfusion hf
  simp only [new_evaluation, hsub, hds, hsr, huser, htask, hcomp, hhid]
  rw [if_neg (by simp), if_neg h2, if_neg (by simp), if_pos hact]

/-- Witness for C5 at a concrete input: submission 2 scored under dataset 2
while the task's active dataset is 1. -/
theorem c5_inactive_dataset_no_dispatch_witness :
    new_evaluation exCfg exDB exState 2 2 =
      .ok (DB.setResult exDB (scoredResult exResult22
             (exDB.compute_score 2 (scoreInput 2 exSubmission exResult22 exUser))),
           { exState with
              submission_results_scored := setAdd exState.submission_results_scored (2, 2) }) :=
  c5_inactive_dataset_no_dispatch exCfg exDB exState 2 2 exSubmission exDataset2
    exUser exTask exResult22 rfl rfl rfl rfl (fun _ => rfl) rfl rfl rfl (by decide)

/-! ### C9 -/

/-- Folding the per-ranking enqueue over rankings not containing `r` leaves
`r`'s entry unchanged. -/
theorem foldEnqueue_other {δ : Type} (k : String) (v : δ) (L : List String)
    (q : Dict String (Dict String δ)) (r : String) (hr : r ∉ L) :
    dget (L.foldl (enqueueStep k v) q) r = dget q r := by
  induction L generalizing q with
  | nil => rfl
  | cons x xs ih =>
      have hx : x ≠ r := fun he => hr (he ▸ List.mem_cons_self x xs)
      have hxs : r ∉ xs := fun hm => hr (List.mem_cons_of_mem _ hm)
      simp only [List.foldl_cons]
      rw [ih _ hxs]
      unfold enqueueStep
      rw [dget_dinsert_ne _ _ _ _ hx]

/-- After the per-ranking enqueue fold, every ranking of the list maps the
enqueued key to the enqueued value. -/
theorem foldEnqueue_lookup {δ : Type} (k : String) (v : δ) (L : List String)
    (q : Dict String (Dict String δ)) (r : String) (hr : r ∈ L) :
    dget (dgetD (L.foldl (enqueueStep k v) q) r []) k = some v := by
  induction L generalizing q with
  | nil => exact absurd hr (List.not_mem_nil r)
  | cons x xs ih =>
      simp only [List.foldl_cons]
      by_cases hxs : r ∈ xs
      · exact ih _ hxs
      · have hx : x = r := by
          rcases List.mem_cons.mp hr with h | h
          · exact h.symm
          · exact absurd h hxs
        subst hx
        have hq : dgetD (List.foldl (enqueueStep k v) (enqueueStep k v q x) xs) x []
            = dinsert (dgetD q x []) k v := by
          unfold dgetD
          rw [foldEnqueue_other k v xs _ x hxs]
          unfold enqueueStep
          rw [dget_dinsert_self]
          rfl
        rw [hq, dget_dinsert_self]

/-- The subchange entry enqueued by `enqueueBoth` is present for every
configured ranking under the given subchange key. -/
theorem enqueueBoth_subchange_lookup (cfg : Config) (st : SSState)
    (k1 : String) (d1 : SubmissionPut) (k2 : String) (d2 : SubchangePut)
    (r : String) (hr : r ∈ cfg.rankings) :
    dget (dgetD (enqueueBoth cfg st k1 d1 k2 d2).subchange_queue r []) k2 = some d2 :=
  foldEnqueue_lookup k2 d2 cfg.rankings st.subchange_queue r hr

/-- C9: every subchange id the service produces is
`<timestamp><submission id><one-character suffix>` — `subchange_id_score`
(used by `new_evaluation` and `dataset_updated`) ends in `'s'`,
`subchange_id_token` (used by `submission_tokened`) ends in `'t'`, so a score
event and a token event of the same submission in the same second get
distinct ids; and on the active-dataset scoring path the subchange entry is
enqueued for every ranking under exactly `encode_id (subchange_id_score ...)`. -/
theorem c9_subchange_id_format :
    (∀ (ts : Int) (sid : Nat),
      (subchange_id_score ts sid).data
          = (toString ts).data ++ (toString sid).data ++ ['s'] ∧
      (subchange_id_token ts sid).data
          = (toString ts).data ++ (toString sid).data ++ ['t'] ∧
      subchange_id_score ts sid ≠ subchange_id_token ts sid) ∧
    (∀ (cfg : Config) (db : DB) (st : SSState) (submission_id dataset_id : Nat)
       (submission : Submission) (dataset : Dataset) (user : User) (task : Task)
       (sr : SubmissionResult),
      DB.getSubmission db submission_id = some submission →
      DB.getDataset db dataset_id = some dataset →
      DB.getResult db submission_id dataset_id = some sr →
      sr.compiled = true →
      (sr.compilation_outcome = some "ok" → sr.evaluated = true) →
      DB.getUser db submission.user_id = some user →
      user.hidden = false →
      DB.getTask db submission.task_id = some task →
      dataset_id = task.active_dataset →
      ∀ r ∈ cfg.rankings,
        (new_evaluation cfg db st submission_id dataset_id).map
            (fun p => dget (dgetD p.2.subchange_queue r [])
              (encode_id (subchange_id_score submission.timestamp submission_id))) =
          .ok (some
            { submission := encode_id (toString submission_id),
              time := submission.timestamp,
              score := some (db.compute_score dataset_id
                (scoreInput submission_id submission sr user)).score,
              token := none,
              extra := db.parse_json (db.compute_score dataset_id
                (scoreInput submission_id submission sr user)).ranking_details })) := by
  have hs : ("s" : String).data = ['s'] := rfl
  have ht : ("t" : String).data = ['t'] := rfl
  constructor
  · intro ts sid
    refine ⟨by simp [subchange_id_score, String.data_append, hs],
            by simp [subchange_id_token, String.data_append, ht], ?_⟩
    intro h
    have hd := congrArg String.data h
    simp only [subchange_id_score, subchange_id_token, String.data_append, hs, ht] at hd
    have hlast := congrArg List.getLast? hd
    rw [List.getLast?_concat, List.getLast?_concat] at hlast
    simp at hlast
  · intro cfg db st submission_id dataset_id submission dataset user task sr
      hsub hds hsr hcomp heval huser hhid htask hact r hr
    have h2 : ¬(sr.compilation_outcome = some "ok" ∧ sr.evaluated = false) := by
      rintro ⟨h1, hf⟩
      rw [heval h1] at hf
      exact Bool.noConfusion hf
    simp only [new_evaluation, hsub, hds, hsr, huser, htask, hcomp, hhid]
    rw [if_neg (by simp), if_neg h2, if_neg (by simp), if_neg (by simp [hact])]
    simp only [Except.map]
    rw [enqueueBoth_subchange_lookup _ _ _ _ _ _ r hr]

/-- Witness for C9's hypotheses at a concrete input: submission 2 under the
active dataset 1. -/
theorem c9_subchange_id_format_witness :
    (new_evaluation exCfg exDB exState 2 1).map
        (fun p => dget (dgetD p.2.subchange_queue "http://r1/" [])
          (encode_id (subchange_id_score 1000 2))) =
      .ok (some
        { submission := encode_id (toString 2), time := 1000,
          score := some (exDB.compute_score 1 (scoreInput 2 exSubmission exResult21 exUser)).score,
          token := none,
          extra := exDB.parse_json (exDB.compute_score 1
            (scoreInput 2 exSubmission exResult21 exUser)).ranking_details }) :=
  c9_subchange_id_format.2 exCfg exDB exState 2 1 exSubmission exDataset1 exUser
    exTask exResult21 rfl rfl rfl rfl (fun _ => rfl) rfl rfl rfl rfl "http://r1/"
    (List.mem_cons_self _ _)

/-! ### C4 -/

/-- `new_evaluation` never touches the backlog sets or the drain flag. -/
theorem new_evaluation_backlogs (cfg : Config) (db : DB) (st : SSState)
    (sid did : Nat) (db' : DB) (st' : SSState)
    (h : new_evaluation cfg db st sid did = .ok (db', st')) :
    st'.submission_results_to_score = st.submission_results_to_score ∧
    st'.submissions_to_token = st.submissions_to_token ∧
    st'.scoring_old_submission = st.scoring_old_submission := by
  unfold new_evaluation at h
  repeat' split at h
  all_goals (try (cases h))
  all_goals exact ⟨rfl, rfl, rfl⟩

/-- `submission_tokened` never touches the backlog sets or the drain flag. -/
theorem submission_tokened_backlogs (cfg : Config) (db : DB) (st : SSState)
    (sid : Nat) (st' : SSState)
    (h : submission_tokened cfg db st sid = .ok st') :
    st'.submission_results_to_score = st.submission_results_to_score ∧
    st'.submissions_to_token = st.submissions_to_token ∧
    st'.scoring_old_submission = st.scoring_old_submission := by
  unfold submission_tokened at h
  repeat' split at h
  all_goals (try (cases h))
  all_goals exact ⟨rfl, rfl, rfl⟩

/-- The scoring drain loop pops exactly `n` pairs (when `n` is within the
backlog) and leaves the token backlog and the drain flag alone. -/
theorem drainScores_spec (cfg : Config) :
    ∀ (n : Nat) (db : DB) (st : SSState) (db' : DB) (st' : SSState),
      drainScores cfg n db st = .ok (db', st') →
      n ≤ st.submission_results_to_score.length →
      st'.submission_results_to_score.length
          = st.submission_results_to_score.length - n ∧
      st'.submissions_to_token = st.submissions_to_token ∧
      st'.scoring_old_submission = st.scoring_old_submission := by
  intro n
  induction n with
  | zero =>
      intro db st db' st' h _
      simp only [drainScores, Except.ok.injEq, Prod.mk.injEq] at h
      obtain ⟨-, rfl⟩ := h
      simp
  | succ n ih =>
      intro db st db' st' h hn
      simp only [drainScores] at h
      cases hb : st.submission_results_to_score with
      | nil => simp only [hb] at h; cases h
      | cons p rest =>
          simp only [hb] at h
          obtain ⟨sid, did⟩ := p
          cases hne : new_evaluation cfg db
              { st with submission_results_to_score := rest } sid did with
          | error e => simp only [hne] at h; cases h
          | ok pr =>
              obtain ⟨db1, st1⟩ := pr
              simp only [hne] at h
              obtain ⟨hb1, hb2, hb3⟩ :=
                new_evaluation_backlogs cfg db _ sid did db1 st1 hne
              have hb1' : st1.submission_results_to_score = rest := by rw [hb1]
              have hb2' : st1.submissions_to_token = st.submissions_to_token := by
                rw [hb2]
              have hb3' : st1.scoring_old_submission = st.scoring_old_submission := by
                rw [hb3]
              have hlen := congrArg List.length hb
              simp only [List.length_cons] at hlen
              have hrest : n ≤ st1.submission_results_to_score.length := by
                rw [hb1']
                omega
              obtain ⟨g1, g2, g3⟩ := ih db1 st1 db' st' h hrest
              refine ⟨?_, ?_, ?_⟩
              · rw [g1, hb1']
                simp only [List.length_cons] at *
                omega
              · rw [g2, hb2']
              · rw [g3, hb3']

/-- The token drain loop pops exactly `n` ids (when `n` is within the
backlog) and leaves the scoring backlog and the drain flag alone. -/
theorem drainTokens_spec (cfg : Config) :
    ∀ (n : Nat) (db : DB) (st : SSState) (db' : DB) (st' : SSState),
      drainTokens cfg n db st = .ok (db', st') →
      n ≤ st.submissions_to_token.length →
      st'.submissions_to_token.length = st.submissions_to_token.length - n ∧
      st'.submission_results_to_score = st.submission_results_to_score ∧
      st'.scoring_old_submission = st.scoring_old_submission := by
  intro n
  induction n with
  | zero =>
      intro db st db' st' h _
      simp only [drainTokens, Except.ok.injEq, Prod.mk.injEq] at h
      obtain ⟨-, rfl⟩ := h
      simp
  | succ n ih =>
      intro db st db' st' h hn
      simp only [drainTokens] at h
      cases hb : st.submissions_to_token with
      | nil => simp only [hb] at h; cases h
      | cons sid rest =>
          simp only [hb] at h
          cases hne : submission_tokened cfg db
              { st with submissions_to_token := rest } sid with
          | error e => simp only [hne] at h; cases h
          | ok st1 =>
              simp only [hne] at h
              obtain ⟨hb1, hb2, hb3⟩ :=
                submission_tokened_backlogs cfg db _ sid st1 hne
              have hb1' : st1.submission_results_to_score
                  = st.submission_results_to_score := by rw [hb1]
              have hb2' : st1.submissions_to_token = rest := by rw [hb2]
              have hb3' : st1.scoring_old_submission = st.scoring_old_submission := by
                rw [hb3]
              have hlen := congrArg List.length hb
              simp only [List.length_cons] at hlen
              have hrest : n ≤ st1.submissions_to_token.length := by
                rw [hb2']
                omega
              obtain ⟨g1, g2, g3⟩ := ih db st1 db' st' h hrest
              refine ⟨?_, ?_, ?_⟩
              · rw [g1, hb2']
                simp only [List.length_cons] at *
                omega
              · rw [g2, hb1']
              · rw [g3, hb3']

def c4db : DB :=
  { contests := [exContest], tasks := [exTask], datasets := [exDataset1],
    users := [exUser],
    submissions := (List.range 10).map
      (fun i => { id := i + 1, user_id := 2, task_id := 1, timestamp := 0, token := none }),
    results := [], compute_score := fun _ _ => exScoreOutput,
    parse_json := fun _ => none }

def c4st : SSState :=
  { exState with submission_results_to_score := (List.range 10).map (fun i => (i + 1, 1)) }

/-- Feed one drain step's output state into the next drain step. -/
def c4_next (r : Except String (DB × SSState × Bool)) :
    Except String (DB × SSState × Bool) :=
  r.bind (fun p => score_old_submissions exCfg p.1 p.2.1)

/-- Observe the backlog sizes and the reschedule flag of a drain step. -/
def c4_obs (r : Except String (DB × SSState × Bool)) : Option (Nat × Nat × Bool) :=
  r.toOption.map
    (fun p => (p.2.1.submission_results_to_score.length,
               p.2.1.submissions_to_token.length, p.2.2))

/-- C4: each drain step pops `min(backlog, 4)` scoring items (so at most 4);
it pops token items (at most 16) only when the scoring backlog fit in the
step, leaving the token backlog untouched otherwise; the step asks to be
rescheduled exactly when some backlog is non-empty afterwards.  Moreover, in
the concrete scenario of 10 unscored results and no pending tokens, exactly
three steps run, popping 4, 4 and 2 (backlogs 10 → 6 → 2 → 0), the first two
rescheduling and the third stopping. -/
theorem c4_drain_step_caps :
    (∀ (cfg : Config) (db : DB) (st : SSState) (db' : DB) (st' : SSState) (again : Bool),
      score_old_submissions cfg db st = .ok (db', st', again) →
      st'.submission_results_to_score.length
          = st.submission_results_to_score.length
            - min st.submission_results_to_score.length 4 ∧
      st'.submissions_to_token.length
          = (if 4 < st.submission_results_to_score.length then
              st.submissions_to_token.length
            else st.submissions_to_token.length - min st.submissions_to_token.length 16) ∧
      (again = true ↔
        (st'.submission_results_to_score ≠ [] ∨ st'.submissions_to_token ≠ []))) ∧
    (c4_obs (score_old_submissions exCfg c4db c4st) = some (6, 0, true) ∧
     c4_obs (c4_next (score_old_submissions exCfg c4db c4st)) = some (2, 0, true) ∧
     c4_obs (c4_next (c4_next (score_old_submissions exCfg c4db c4st)))
       = some (0, 0, false)) := by
  constructor
  · intro cfg db st db' st' again h
    simp only [score_old_submissions] at h
    have hmin4 : (if st.submission_results_to_score.length < 4 then
        st.submission_results_to_score.length else 4)
        = min st.submission_results_to_score.length 4 := by
      rcases Nat.lt_or_ge st.submission_results_to_score.length 4 with hlt | hge
      · rw [if_pos hlt, Nat.min_eq_left (Nat.le_of_lt hlt)]
      · rw [if_neg (Nat.not_lt.mpr hge), Nat.min_eq_right hge]
    have hmin16 : (if st.submissions_to_token.length < 16 then
        st.submissions_to_token.length else 16)
        = min st.submissions_to_token.length 16 := by
      rcases Nat.lt_or_ge st.submissions_to_token.length 16 with hlt | hge
      · rw [if_pos hlt, Nat.min_eq_left (Nat.le_of_lt hlt)]
      · rw [if_neg (Nat.not_lt.mpr hge), Nat.min_eq_right hge]
    rw [hmin4, hmin16] at h
    cases hd1 : drainScores cfg (min st.submission_results_to_score.length 4) db
        { st with scoring_old_submission := true } with
    | error e => rw [hd1] at h; cases h
    | ok pr1 =>
        obtain ⟨db1, st1⟩ := pr1
        simp only [hd1] at h
        obtain ⟨s1, s2, s3⟩ := drainScores_spec cfg _ db _ db1 st1 hd1
          (by simp [Nat.min_le_left])
        simp only at s1 s2 s3
        by_cases hpos : st.submission_results_to_score.length
            - min st.submission_results_to_score.length 4 > 0
        · rw [if_pos hpos] at h
          obtain ⟨rfl, rfl, rfl⟩ := by
            simpa [Except.ok.injEq, Prod.mk.injEq] using h
          have hgt4 : 4 < st.submission_results_to_score.length := by omega
          refine ⟨by omega, by rw [if_pos hgt4, s2], ?_⟩
          constructor
          · intro _
            left
            intro hnil
            rw [hnil] at s1
            simp at s1
            omega
          · intro _
            rfl
        · rw [if_neg hpos] at h
          have hle4 : st.submission_results_to_score.length ≤ 4 := by omega
          cases hd2 : drainTokens cfg (min st.submissions_to_token.length 16) db1 st1 with
          | error e => rw [hd2] at h; cases h
          | ok pr2 =>
              obtain ⟨db2, st2⟩ := pr2
              simp only [hd2] at h
              obtain ⟨t1, t2, t3⟩ := drainTokens_spec cfg _ db1 st1 db2 st2 hd2
                (by rw [s2]; exact Nat.min_le_left _ _)
              have t2len : st2.submission_results_to_score.length
                  = st1.submission_results_to_score.length := by rw [t2]
              by_cases htpos : st.submissions_to_token.length
                  - min st.submissions_to_token.length 16 > 0
              · rw [s2] at t1
                rw [if_pos htpos] at h
                obtain ⟨rfl, rfl, rfl⟩ := by
                  simpa [Except.ok.injEq, Prod.mk.injEq] using h
                have hgt16 : 16 < st.submissions_to_token.length := by omega
                refine ⟨by omega, by rw [if_neg (by omega), t1], ?_⟩
                constructor
                · intro _
                  right
                  intro hnil
                  rw [hnil] at t1
                  simp at t1
                  omega
                · intro _
                  rfl
              · rw [s2] at t1
                rw [if_neg htpos] at h
                obtain ⟨rfl, rfl, rfl⟩ := by
                  simpa [Except.ok.injEq, Prod.mk.injEq] using h
                have hle16 : st.submissions_to_token.length ≤ 16 := by omega
                refine ⟨by simp; omega, by rw [if_neg (by omega)]; simp; omega, ?_⟩
                constructor
                · intro hfalse
                  cases hfalse
                · rintro (hnil | hnil)
                  · exfalso
                    apply hnil
                    apply List.length_eq_zero.mp
                    simp [t2, s1]
                    omega
                  · exfalso
                    apply hnil
                    apply List.length_eq_zero.mp
                    simp [t1]
                    omega
  · exact ⟨rfl, rfl, rfl⟩

/-- Witness for C4's general conjunct at a concrete input (the empty-backlog
step, which stops immediately). -/
theorem c4_drain_step_caps_witness :
    exState.submission_results_to_score.length
        = exState.submission_results_to_score.length
          - min exState.submission_results_to_score.length 4 ∧
    exState.submissions_to_token.length
        = (if 4 < exState.submission_results_to_score.length then
            exState.submissions_to_token.length
          else exState.submissions_to_token.length
            - min exState.submissions_to_token.length 16) ∧
    (false = true ↔
      (exState.submission_results_to_score ≠ [] ∨ exState.submissions_to_token ≠ [])) := by
  have h := c4_drain_step_caps.1 exCfg exDB exState exDB
    { exState with scoring_old_submission := false } false rfl
  simpa using h

/-! ### C6 -/

/-- Every pair the inner scan loop adds was either already accumulated or is
not marked scored. -/
theorem scanDatasets_mem (db : DB) (st : SSState) (submission : Submission) :
    ∀ (dsids : List Nat) (ps : List (Nat × Nat)) (p : Nat × Nat),
      p ∈ scanDatasets db st submission ps dsids →
      p ∈ ps ∨ p ∉ st.submission_results_scored := by
  intro dsids
  induction dsids with
  | nil => intro ps p hp; exact Or.inl hp
  | cons did rest ih =>
      intro ps p hp
      simp only [scanDatasets, List.foldl_cons] at hp
      rw [show ∀ ps0, List.foldl _ ps0 rest = scanDatasets db st submission ps0 rest
            from fun _ => rfl] at hp
      rcases hr : DB.getResult db submission.id did with _ | sr
      · simp only [hr] at hp
        exact ih ps p hp
      · simp only [hr] at hp
        by_cases hc : ((sr.evaluated || (sr.compilation_outcome == some "fail")) &&
            !(decide ((submission.id, did) ∈ st.submission_results_scored))) = true
        · rw [if_pos hc] at hp
          rcases ih _ p hp with hmem | hout
          · rcases mem_setAdd.mp hmem with hmem' | rfl
            · exact Or.inl hmem'
            · right
              have h2 := (Bool.and_eq_true _ _).mp hc
              have h3 := h2.2
              simp only [Bool.not_eq_true', decide_eq_false_iff_not] at h3
              exact h3
          · exact Or.inr hout
        · rw [if_neg hc] at hp
          exact ih ps p hp

/-- Every pair the scan over the submissions adds is not marked scored, and
every id it adds to the token backlog is not marked tokened. -/
theorem scanFold_mem (db : DB) (st : SSState) :
    ∀ (subs : List Submission) (acc : List (Nat × Nat) × List Nat),
      (∀ p, p ∈ (subs.foldl (scanStep db st) acc).1 →
        p ∈ acc.1 ∨ p ∉ st.submission_results_scored) ∧
      (∀ i, i ∈ (subs.foldl (scanStep db st) acc).2 →
        i ∈ acc.2 ∨ i ∉ st.submissions_tokened) := by
  intro subs
  induction subs with
  | nil => intro acc; exact ⟨fun p hp => Or.inl hp, fun i hi => Or.inl hi⟩
  | cons submission rest ih =>
      intro acc
      simp only [List.foldl_cons]
      constructor
      · intro p hp
        rcases (ih (scanStep db st acc submission)).1 p hp with hmem | hout
        · simp only [scanStep] at hmem
          rcases ht : DB.getTask db submission.task_id with _ | task
          · simp only [ht] at hmem
            exact Or.inl hmem
          · simp only [ht] at hmem
            exact scanDatasets_mem db st submission task.datasets_to_judge acc.1 p hmem
        · exact Or.inr hout
      · intro i hi
        rcases (ih (scanStep db st acc submission)).2 i hi with hmem | hout
        · simp only [scanStep] at hmem
          by_cases hc : (submission.tokened &&
              !(decide (submission.id ∈ st.submissions_tokened))) = true
          · rw [if_pos hc] at hmem
            rcases mem_setAdd.mp hmem with hmem' | rfl
            · exact Or.inl hmem'
            · right
              have h3 := ((Bool.and_eq_true _ _).mp hc).2
              simp only [Bool.not_eq_true', decide_eq_false_iff_not] at h3
              exact h3
          · rw [if_neg hc] at hmem
            exact Or.inl hmem
        · exact Or.inr hout

/-- C6: the catch-up scan is a no-op while a drain is in progress
(`scoring_old_submission`), and it never adds a (submission, dataset) pair
already marked scored to the scoring backlog, nor a submission id already
marked tokened to the token backlog: every backlog element after a scan was
either already queued or not yet marked done. -/
theorem c6_scan_no_duplicates (db : DB) (st : SSState) :
    (st.scoring_old_submission = true → search_jobs_not_done db st = .ok (st, false)) ∧
    (∀ (st' : SSState) (sched : Bool), search_jobs_not_done db st = .ok (st', sched) →
      (∀ p, p ∈ st'.submission_results_to_score →
        p ∈ st.submission_results_to_score ∨ p ∉ st.submission_results_scored) ∧
      (∀ i, i ∈ st'.submissions_to_token →
        i ∈ st.submissions_to_token ∨ i ∉ st.submissions_tokened)) := by
  constructor
  · intro hflag
    unfold search_jobs_not_done
    rw [if_pos hflag]
  · intro st' sched h
    unfold search_jobs_not_done at h
    by_cases hflag : st.scoring_old_submission = true
    · rw [if_pos hflag] at h
      obtain ⟨rfl, -⟩ : st = st' ∧ (false : Bool) = sched := by
        rw [Except.ok.injEq, Prod.mk.injEq] at h
        exact h
      exact ⟨fun p hp => Or.inl hp, fun i hi => Or.inl hi⟩
    · rw [if_neg hflag] at h
      cases hc : DB.getContest db st.contest_id with
      | none => rw [hc] at h; cases h
      | some contest =>
          simp only [hc] at h
          by_cases hgt :
              ((submissionsOfContest db contest.id).foldl (scanStep db st) ([], [])).1.length
              + ((submissionsOfContest db contest.id).foldl (scanStep db st) ([], [])).2.length
              > 0
          · rw [if_pos hgt] at h
            obtain ⟨rfl, -⟩ : _ ∧ _ = sched := by
              rw [Except.ok.injEq, Prod.mk.injEq] at h
              exact h
            constructor
            · intro p hp
              simp only at hp
              rcases mem_setUnion.mp hp with hold | hnew
              · exact Or.inl hold
              · rcases (scanFold_mem db st (submissionsOfContest db contest.id)
                    ([], [])).1 p hnew with hnil | hout
                · cases hnil
                · exact Or.inr hout
            · intro i hi
              simp only at hi
              rcases mem_setUnion.mp hi with hold | hnew
              · exact Or.inl hold
              · rcases (scanFold_mem db st (submissionsOfContest db contest.id)
                    ([], [])).2 i hnew with hnil | hout
                · cases hnil
                · exact Or.inr hout
          · rw [if_neg hgt] at h
            obtain ⟨rfl, -⟩ : st = st' ∧ (false : Bool) = sched := by
              rw [Except.ok.injEq, Prod.mk.injEq] at h
              exact h
            exact ⟨fun p hp => Or.inl hp, fun i hi => Or.inl hi⟩

/-- Witness for C6 at a concrete input: the scan is a no-op while a drain is
marked in progress, and the resulting backlogs satisfy the no-duplicate
property. -/
theorem c6_scan_no_duplicates_witness :
    search_jobs_not_done exDB { exState with scoring_old_submission := true }
        = .ok ({ exState with scoring_old_submission := true }, false) ∧
    ((1, 1) ∈ exState.submission_results_to_score ∨
      (1, 1) ∉ exState.submission_results_scored) :=
  ⟨(c6_scan_no_duplicates exDB { exState with scoring_old_submission := true }).1 rfl,
   ((c6_scan_no_duplicates exDB exState).2
      { exState with
         submission_results_to_score := [(1, 1), (2, 1), (2, 2)],
         submissions_to_token := [2] } true rfl).1 (1, 1) (by decide)⟩

/-! ### C7 -/

/-- Replacing the row with a given key commutes with the keyed lookup. -/
theorem find?_map_replace (sr' : SubmissionResult) (s d : Nat) :
    ∀ l : List SubmissionResult,
      List.find? (fun r => r.submission_id == s && r.dataset_id == d)
          (l.map (fun r => if r.submission_id == sr'.submission_id &&
              r.dataset_id == sr'.dataset_id then sr' else r))
        = (List.find? (fun r => r.submission_id == s && r.dataset_id == d) l).map
            (fun r => if r.submission_id == sr'.submission_id &&
                r.dataset_id == sr'.dataset_id then sr' else r) := by
  intro l
  induction l with
  | nil => rfl
  | cons r rest ih =>
      simp only [List.map_cons]
      by_cases hq : (r.submission_id == s && r.dataset_id == d) = true
      · have hq2 : (((if r.submission_id == sr'.submission_id &&
            r.dataset_id == sr'.dataset_id then sr' else r).submission_id == s) &&
            ((if r.submission_id == sr'.submission_id &&
              r.dataset_id == sr'.dataset_id then sr' else r).dataset_id == d)) = true := by
          by_cases hc : (r.submission_id == sr'.submission_id &&
              r.dataset_id == sr'.dataset_id) = true
          · rw [if_pos hc]
            simp only [Bool.and_eq_true, beq_iff_eq] at hq hc ⊢
            exact ⟨by rw [← hc.1]; exact hq.1, by rw [← hc.2]; exact hq.2⟩
          · rw [if_neg hc]
            exact hq
        simp only [List.find?_cons, hq, hq2]
        rfl
      · have hq' : (r.submission_id == s && r.dataset_id == d) = false := by
          rcases hx : (r.submission_id == s && r.dataset_id == d) with _ | _
          · rfl
          · exact absurd hx hq
        have hq2 : (((if r.submission_id == sr'.submission_id &&
            r.dataset_id == sr'.dataset_id then sr' else r).submission_id == s) &&
            ((if r.submission_id == sr'.submission_id &&
              r.dataset_id == sr'.dataset_id then sr' else r).dataset_id == d)) = false := by
          by_cases hc : (r.submission_id == sr'.submission_id &&
              r.dataset_id == sr'.dataset_id) = true
          · rw [if_pos hc]
            rcases hb : ((sr'.submission_id == s) && (sr'.dataset_id == d)) with _ | _
            · rfl
            · exfalso
              apply hq
              simp only [Bool.and_eq_true, beq_iff_eq] at hb hc ⊢
              exact ⟨hc.1.trans hb.1, hc.2.trans hb.2⟩
          · rw [if_neg hc]
            exact hq'
        simp only [List.find?_cons, hq', hq2]
        exact ih

/-- `DB.setResult` seen through `DB.getResult`. -/
theorem getResult_setResult (db : DB) (sr' : SubmissionResult) (s d : Nat) :
    DB.getResult (DB.setResult db sr') s d
      = (DB.getResult db s d).map
          (fun r => if r.submission_id == sr'.submission_id &&
              r.dataset_id == sr'.dataset_id then sr' else r) :=
  find?_map_replace sr' s d db.results

@[simp] theorem invalidate_score_submission_id (sr : SubmissionResult) :
    (SubmissionResult.invalidate_score sr).submission_id = sr.submission_id := rfl

@[simp] theorem invalidate_score_dataset_id (sr : SubmissionResult) :
    (SubmissionResult.invalidate_score sr).dataset_id = sr.dataset_id := rfl

/-- The stored-row transformation `invalidateFold` applies, step by step, to
the row a keyed lookup finds. -/
def invalidateChain (rs : List SubmissionResult) (r : SubmissionResult) :
    SubmissionResult :=
  rs.foldl
    (fun v m =>
      if m.evaluated then
        (if v.submission_id == (SubmissionResult.invalidate_score m).submission_id &&
            v.dataset_id == (SubmissionResult.invalidate_score m).dataset_id then
          SubmissionResult.invalidate_score m
        else v)
      else v)
    r

theorem invalidateFold_getResult :
    ∀ (rs : List SubmissionResult) (acc : DB × List (Nat × Nat)) (s d : Nat),
      DB.getResult (invalidateFold rs acc).1 s d
        = (DB.getResult acc.1 s d).map (invalidateChain rs) := by
  intro rs
  induction rs with
  | nil =>
      intro acc s d
      have h0 : invalidateFold [] acc = acc := rfl
      rw [h0]
      cases DB.getResult acc.1 s d <;> rfl
  | cons m rest ih =>
      intro acc s d
      by_cases he : m.evaluated = true
      · have h1 : invalidateFold (m :: rest) acc
            = invalidateFold rest
                (DB.setResult acc.1 (SubmissionResult.invalidate_score m),
                 setAdd acc.2 (m.submission_id, m.dataset_id)) := by
          conv_lhs => rw [invalidateFold]
          rw [if_pos he]
        rw [h1, ih, getResult_setResult]
        cases hr : DB.getResult acc.1 s d with
        | none => rfl
        | some r0 =>
            simp only [Option.map]
            have : invalidateChain (m :: rest) r0
                = invalidateChain rest
                    (if r0.submission_id == (SubmissionResult.invalidate_score m).submission_id &&
                        r0.dataset_id == (SubmissionResult.invalidate_score m).dataset_id then
                      SubmissionResult.invalidate_score m
                    else r0) := by
              simp only [invalidateChain, List.foldl_cons, if_pos he]
            rw [this]
      · have h1 : invalidateFold (m :: rest) acc = invalidateFold rest acc := by
          conv_lhs => rw [invalidateFold]
          rw [if_neg he]
        rw [h1, ih]
        cases hr : DB.getResult acc.1 s d with
        | none => rfl
        | some r0 =>
            simp only [Option.map]
            have : invalidateChain (m :: rest) r0 = invalidateChain rest r0 := by
              simp only [invalidateChain, List.foldl_cons, if_neg he]
            rw [this]

/-- A chain whose every element has a different key leaves the row alone. -/
theorem invalidateChain_skip (rest : List SubmissionResult) (v : SubmissionResult)
    (h : ∀ m ∈ rest, (m.submission_id, m.dataset_id) ≠ (v.submission_id, v.dataset_id)) :
    invalidateChain rest v = v := by
  induction rest with
  | nil => rfl
  | cons m rest' ih =>
      have hm := h m (List.mem_cons_self _ _)
      have hstep : (if m.evaluated then
          (if v.submission_id == (SubmissionResult.invalidate_score m).submission_id &&
              v.dataset_id == (SubmissionResult.invalidate_score m).dataset_id then
            SubmissionResult.invalidate_score m
          else v)
        else v) = v := by
        by_cases he : m.evaluated = true
        · rw [if_pos he]
          rw [if_neg]
          intro hx
          simp only [invalidate_score_submission_id, invalidate_score_dataset_id,
            Bool.and_eq_true, beq_iff_eq] at hx
          exact hm (Prod.ext hx.1.symm hx.2.symm)
        · rw [if_neg he]
      calc invalidateChain (m :: rest') v
          = invalidateChain rest' v := by
            simp only [invalidateChain, List.foldl_cons, hstep]
        _ = v := ih (fun m' hm' => h m' (List.mem_cons_of_mem _ hm'))

/-- On a row with unique keys, the chain reduces to a single conditional
invalidation: cleared exactly when the row is among the chain's elements and
evaluated. -/
theorem invalidateChain_eq (rs : List SubmissionResult) (r0 : SubmissionResult)
    (hu : ∀ m ∈ rs, (m.submission_id, m.dataset_id)
        = (r0.submission_id, r0.dataset_id) → m = r0)
    (hnod : (rs.map (fun m => (m.submission_id, m.dataset_id))).Nodup) :
    invalidateChain rs r0
      = if (decide (r0 ∈ rs) && r0.evaluated) = true then
          SubmissionResult.invalidate_score r0
        else r0 := by
  induction rs with
  | nil => simp [invalidateChain]
  | cons m rest ih =>
      simp only [List.map_cons, List.nodup_cons] at hnod
      by_cases hkey : (m.submission_id, m.dataset_id) = (r0.submission_id, r0.dataset_id)
      · have hm : m = r0 := hu m (List.mem_cons_self _ _) hkey
        subst hm
        have hrest : ∀ m' ∈ rest, (m'.submission_id, m'.dataset_id)
            ≠ (m.submission_id, m.dataset_id) := by
          intro m' hm' he
          exact hnod.1 (by rw [← he]; exact List.mem_map_of_mem _ hm')
      -- with the head equal to the row, the first step decides everything
        by_cases he : m.evaluated = true
        · have hstep : invalidateChain (m :: rest) m
              = invalidateChain rest (SubmissionResult.invalidate_score m) := by
            simp [invalidateChain, he]
          rw [hstep, invalidateChain_skip rest _ (by
            intro m' hm' hcon
            exact hrest m' hm' (by simpa [SubmissionResult.invalidate_score] using hcon))]
          rw [if_pos (by simp [he, List.mem_cons_self])]
        · have hstep : invalidateChain (m :: rest) m = invalidateChain rest m := by
            simp [invalidateChain, he]
          rw [hstep, invalidateChain_skip rest m hrest]
          rw [if_neg (by simp [he])]
      · have hne : m ≠ r0 := fun hmr => hkey (by rw [hmr])
        have hP : ¬(r0.submission_id = m.submission_id ∧ r0.dataset_id = m.dataset_id) := by
          rintro ⟨h1', h2'⟩
          exact hkey (Prod.ext h1'.symm h2'.symm)
        have hstep : invalidateChain (m :: rest) r0 = invalidateChain rest r0 := by
          by_cases he : m.evaluated = true
          · simp [invalidateChain, he, SubmissionResult.invalidate_score, hP]
          · simp [invalidateChain, he]
        have hiff : (r0 ∈ m :: rest) ↔ (r0 ∈ rest) := by
          constructor
          · intro hx
            rcases List.mem_cons.mp hx with h1 | h1
            · exact absurd h1.symm hne
            · exact h1
          · exact fun hx => List.mem_cons_of_mem _ hx
        rw [hstep, ih (fun m' hm' hk => hu m' (List.mem_cons_of_mem _ hm') hk) hnod.2,
            show (decide (r0 ∈ rest)) = (decide (r0 ∈ m :: rest)) from
              decide_eq_decide.mpr hiff.symm]

/-- The pairs `invalidateFold` collects for re-queueing: exactly the evaluated
rows of the matched list. -/
theorem invalidateFold_pairs :
    ∀ (rs : List SubmissionResult) (acc : DB × List (Nat × Nat)) (p : Nat × Nat),
      p ∈ (invalidateFold rs acc).2 ↔
        p ∈ acc.2 ∨ ∃ m, m ∈ rs ∧ m.evaluated = true ∧
          p = (m.submission_id, m.dataset_id) := by
  intro rs
  induction rs with
  | nil =>
      intro acc p
      simp [invalidateFold]
  | cons m rest ih =>
      intro acc p
      by_cases he : m.evaluated = true
      · have h1 : invalidateFold (m :: rest) acc
            = invalidateFold rest
                (DB.setResult acc.1 (SubmissionResult.invalidate_score m),
                 setAdd acc.2 (m.submission_id, m.dataset_id)) := by
          conv_lhs => rw [invalidateFold]
          rw [if_pos he]
        rw [h1, ih]
        simp only [mem_setAdd]
        constructor
        · rintro ((hp | rfl) | ⟨m', hm', he', rfl⟩)
          · exact Or.inl hp
          · exact Or.inr ⟨m, List.mem_cons_self _ _, he, rfl⟩
          · exact Or.inr ⟨m', List.mem_cons_of_mem _ hm', he', rfl⟩
        · rintro (hp | ⟨m', hm', he', rfl⟩)
          · exact Or.inl (Or.inl hp)
          · rcases List.mem_cons.mp hm' with rfl | hm''
            · exact Or.inl (Or.inr rfl)
            · exact Or.inr ⟨m', hm'', he', rfl⟩
      · have h1 : invalidateFold (m :: rest) acc = invalidateFold rest acc := by
          conv_lhs => rw [invalidateFold]
          rw [if_neg he]
        rw [h1, ih]
        constructor
        · rintro (hp | ⟨m', hm', he', rfl⟩)
          · exact Or.inl hp
          · exact Or.inr ⟨m', List.mem_cons_of_mem _ hm', he', rfl⟩
        · rintro (hp | ⟨m', hm', he', rfl⟩)
          · exact Or.inl hp
          · rcases List.mem_cons.mp hm' with rfl | hm''
            · rw [he'] at he
              exact absurd rfl he
            · exact Or.inr ⟨m', hm'', he', rfl⟩

/-- C7: `invalidate_submission` clears the score fields of exactly the
matching results that are evaluated (every other stored row is unchanged),
re-queues exactly the matched evaluated (submission, dataset) pairs for
scoring, leaves the token backlog and the dispatch queues alone, and starts
the drain when both backlogs were empty before the call and something matched
(in particular whenever at least one result was re-queued). -/
theorem c7_invalidate_exact (db : DB) (st : SSState) (sid did uid tid : Option Nat)
    (matched : List SubmissionResult)
    (hkeys : (db.results.map (fun r => (r.submission_id, r.dataset_id))).Nodup)
    (hmatched : matched = get_submission_results db
        (if sid = none ∧ did = none ∧ uid = none ∧ tid = none then some st.contest_id
         else none) uid tid sid did) :
    (∀ s d, DB.getResult (invalidate_submission db st sid did uid tid).1 s d
        = (DB.getResult db s d).map (fun r =>
            if (decide (r ∈ matched) && r.evaluated) = true then
              SubmissionResult.invalidate_score r
            else r)) ∧
    (∀ p, p ∈ (invalidate_submission db st sid did uid tid).2.1.submission_results_to_score
      ↔ p ∈ st.submission_results_to_score ∨
          ∃ m, m ∈ matched ∧ m.evaluated = true ∧ p = (m.submission_id, m.dataset_id)) ∧
    (invalidate_submission db st sid did uid tid).2.1.submissions_to_token
        = st.submissions_to_token ∧
    (invalidate_submission db st sid did uid tid).2.1.submission_queue
        = st.submission_queue ∧
    (invalidate_submission db st sid did uid tid).2.1.subchange_queue
        = st.subchange_queue ∧
    ((st.submission_results_to_score = [] ∧ st.submissions_to_token = []
        ∧ matched ≠ []) →
      (invalidate_submission db st sid did uid tid).2.2 = true) := by
  subst hmatched
  by_cases hlen : (get_submission_results db
      (if sid = none ∧ did = none ∧ uid = none ∧ tid = none then some st.contest_id
       else none) uid tid sid did).length = 0
  · have hM := List.length_eq_zero.mp hlen
    have hres : invalidate_submission db st sid did uid tid = (db, st, false) := by
      unfold invalidate_submission
      rw [if_pos hlen]
    rw [hres, hM]
    refine ⟨?_, ?_, rfl, rfl, rfl, ?_⟩
    · intro s d
      cases hr : DB.getResult db s d with
      | none => rfl
      | some r0 => simp
    · intro p
      simp
    · rintro ⟨-, -, h3⟩
      exact absurd rfl h3
  · set M := get_submission_results db
        (if sid = none ∧ did = none ∧ uid = none ∧ tid = none then
          some st.contest_id else none) uid tid sid did with hMdef
    set F := invalidateFold M (db, []) with hFdef
    have hres : invalidate_submission db st sid did uid tid
        = (F.1,
           { st with submission_results_to_score := setUnion st.submission_results_to_score F.2 },
           (st.submission_results_to_score.length + st.submissions_to_token.length == 0)) := by
      unfold invalidate_submission
      rw [if_neg hlen]
    have hnodM : (M.map (fun r => (r.submission_id, r.dataset_id))).Nodup := by
      rw [hMdef]
      unfold get_submission_results
      exact ((List.filter_sublist _).map _).nodup hkeys
    rw [hres]
    refine ⟨?_, ?_, rfl, rfl, rfl, ?_⟩
    · intro s d
      rw [invalidateFold_getResult]
      cases hr : DB.getResult db s d with
      | none => rfl
      | some r0 =>
          simp only [Option.map]
          rw [invalidateChain_eq _ r0 ?_ hnodM]
          intro m hm hk
          have hr0mem : r0 ∈ db.results := List.mem_of_find?_eq_some hr
          have hmmem : m ∈ db.results := by
            unfold get_submission_results at hm
            exact List.mem_of_mem_filter hm
          exact List.inj_on_of_nodup_map hkeys hmmem hr0mem hk
    · intro p
      simp only
      rw [mem_setUnion, invalidateFold_pairs]
      simp
    · rintro ⟨h1, h2, -⟩
      simp [h1, h2]

/-- Witness for C7 at a concrete input: invalidating submission 1 under
dataset 1, which matches exactly the evaluated result `exResult11` and starts
the drain on empty backlogs. -/
theorem c7_invalidate_exact_witness :
    (invalidate_submission exDB exState (some 1) (some 1) none none).2.2 = true ∧
    ((1, 1) ∈ (invalidate_submission exDB exState (some 1) (some 1)
        none none).2.1.submission_results_to_score ↔
      (1, 1) ∈ exState.submission_results_to_score ∨
        ∃ m, m ∈ [exResult11] ∧ m.evaluated = true ∧
          m.submission_id = 1 ∧ m.dataset_id = 1) := by
  have h := c7_invalidate_exact exDB exState (some 1) (some 1) none none
    [exResult11] (by decide) (by decide)
  refine ⟨h.2.2.2.2.2 ⟨rfl, rfl, by simp⟩, ?_⟩
  rw [h.2.1 (1, 1)]
  constructor
  · rintro (h1 | ⟨m, hm, he, hp⟩)
    · exact Or.inl h1
    · refine Or.inr ⟨m, hm, he, ?_, ?_⟩
      · exact congrArg Prod.fst hp.symm
      · exact congrArg Prod.snd hp.symm
  · rintro (h1 | ⟨m, hm, he, hp1, hp2⟩)
    · exact Or.inl h1
    · exact Or.inr ⟨m, hm, he, by rw [hp1, hp2]⟩

/-! ### C8 -/

/-- Hexadecimal digits (either case). -/
def isHexDigit (c : Char) : Bool := "0123456789abcdefABCDEF".data.contains c

/-- C8 counterexample: on the one-byte input `"\n"` (byte `0x0a < 0x10`),
`hex(10)[-2:]` is `"xa"` — the letter `x` followed by one hex digit, not a
hexadecimal suffix — so `encode_id` produces `"_xa"` and the claim's "an
underscore followed by a fixed-width hexadecimal suffix derived from that
byte" is false at this input. -/
theorem c8_low_byte_not_hex :
    encode_id (String.mk [Char.ofNat 10]) = "_xa" ∧
    (("xa" : String).data.all isHexDigit) = false := by
  constructor
  · rfl
  · rfl

/-- The lowercase hex digit of `n < 16`. -/
def hexDigit (n : Nat) : Char := "0123456789abcdef".data.getD n '*'

/-- The amended per-byte encoding, following the corrected claim: an allowed
byte passes unchanged; a byte `≥ 0x10` becomes an underscore and its two
lowercase hex digits; a byte `< 0x10` becomes an underscore, the letter `x`
and one hex digit (the last two characters of Python's `hex`). -/
def encode_byte_spec (b : Nat) : List Char :=
  if (allowedAlphabet.data.contains (Char.ofNat b)) = true then [Char.ofNat b]
  else if b < 16 then ['_', 'x', hexDigit b]
  else ['_', hexDigit (b / 16), hexDigit (b % 16)]

/-- The characters one byte contributes to `encode_id`'s output, read off the
source's fold step. -/
def encode_byte_py (b : Nat) : List Char :=
  if (allowedAlphabet.data.contains (Char.ofNat b)) = false then
    '_' :: (lastTwo (hexPy b)).data
  else [Char.ofNat b]

/-- `encode_id`'s fold, flattened to one block of characters per byte. -/
theorem encode_id_data (bytes : List Nat) :
    ∀ acc : String,
      (bytes.foldl
        (fun encoded b =>
          if (allowedAlphabet.data.contains (Char.ofNat b)) = false then
            encoded ++ "_" ++ lastTwo (hexPy b)
          else encoded ++ String.mk [Char.ofNat b]) acc).data
      = acc.data ++ bytes.foldr (fun b r => encode_byte_py b ++ r) [] := by
  induction bytes with
  | nil => intro acc; simp
  | cons b rest ih =>
      intro acc
      simp only [List.foldl_cons, List.foldr_cons]
      rw [ih]
      by_cases hc : (allowedAlphabet.data.contains (Char.ofNat b)) = false
      · rw [if_pos hc]
        have hmem : Char.ofNat b ∉ allowedAlphabet.data := by simpa using hc
        simp [encode_byte_py, hc, hmem, String.data_append]
      · rw [if_neg hc]
        have hmem : Char.ofNat b ∈ allowedAlphabet.data := by simpa using hc
        simp [encode_byte_py, hmem, String.data_append]

set_option maxRecDepth 4000 in
/-- For every actual byte value the source block and the amended description
agree (checked for all 256 byte values). -/
theorem encode_byte_py_eq_spec : ∀ b < 256, encode_byte_py b = encode_byte_spec b := by
  decide

set_option maxRecDepth 4000 in
/-- Every character of a byte's block is a letter, a digit or an underscore
(checked for all 256 byte values). -/
theorem encode_byte_spec_closure :
    ∀ b < 256, ∀ c ∈ encode_byte_spec b, c ∈ (allowedAlphabet ++ "_").data := by
  decide

theorem char_toNat_lt (c : Char) : c.toNat < 0x110000 := by
  have h : c.val.toNat < 0xd800 ∨ (0xe000 ≤ c.val.toNat ∧ c.val.toNat < 0x110000) :=
    c.valid
  rcases h with h | ⟨-, h2⟩
  · exact Nat.lt_trans h (by decide)
  · exact h2

/-- UTF-8 code units are bytes. -/
theorem utf8EncodeChar_lt (n : Nat) (hn : n < 0x110000) :
    ∀ b ∈ utf8EncodeChar n, b < 256 := by
  intro b hb
  unfold utf8EncodeChar at hb
  by_cases h1 : n < 0x80
  · rw [if_pos h1] at hb
    rcases List.mem_singleton.mp hb with rfl
    omega
  · rw [if_neg h1] at hb
    by_cases h2 : n < 0x800
    · rw [if_pos h2] at hb
      have hd : n / 64 < 32 := Nat.div_lt_of_lt_mul (by omega)
      have hm : n % 64 < 64 := Nat.mod_lt _ (by omega)
      rcases List.mem_cons.mp hb with rfl | hb
      · omega
      · rcases List.mem_singleton.mp hb with rfl
        omega
    · rw [if_neg h2] at hb
      by_cases h3 : n < 0x10000
      · rw [if_pos h3] at hb
        have hd : n / 4096 < 16 := Nat.div_lt_of_lt_mul (by omega)
        have hm1 : (n / 64) % 64 < 64 := Nat.mod_lt _ (by omega)
        have hm2 : n % 64 < 64 := Nat.mod_lt _ (by omega)
        rcases List.mem_cons.mp hb with rfl | hb
        · omega
        · rcases List.mem_cons.mp hb with rfl | hb
          · omega
          · rcases List.mem_singleton.mp hb with rfl
            omega
      · rw [if_neg h3] at hb
        have hd : n / 0x40000 < 5 := Nat.div_lt_of_lt_mul (by omega)
        have hm1 : (n / 4096) % 64 < 64 := Nat.mod_lt _ (by omega)
        have hm2 : (n / 64) % 64 < 64 := Nat.mod_lt _ (by omega)
        have hm3 : n % 64 < 64 := Nat.mod_lt _ (by omega)
        rcases List.mem_cons.mp hb with rfl | hb
        · omega
        · rcases List.mem_cons.mp hb with rfl | hb
          · omega
          · rcases List.mem_cons.mp hb with rfl | hb
            · omega
            · rcases List.mem_singleton.mp hb with rfl
              omega

theorem utf8Encode_lt (s : String) : ∀ b ∈ utf8Encode s, b < 256 := by
  unfold utf8Encode
  induction s.data with
  | nil => intro b hb; cases hb
  | cons c rest ih =>
      intro b hb
      simp only [List.foldr_cons] at hb
      rcases List.mem_append.mp hb with hb | hb
      · exact utf8EncodeChar_lt c.toNat (char_toNat_lt c) b hb
      · exact ih b hb

theorem mem_foldr_append {f : Nat → List Char} {c : Char} :
    ∀ l : List Nat, c ∈ l.foldr (fun b r => f b ++ r) [] → ∃ b ∈ l, c ∈ f b := by
  intro l
  induction l with
  | nil => intro hc; cases hc
  | cons b rest ih =>
      intro hc
      rcases List.mem_append.mp hc with hc | hc
      · exact ⟨b, List.mem_cons_self _ _, hc⟩
      · obtain ⟨b', hb', hc'⟩ := ih hc
        exact ⟨b', List.mem_cons_of_mem _ hb', hc'⟩

theorem foldr_congr_bytes (f g : Nat → List Char) :
    ∀ l : List Nat, (∀ b ∈ l, f b = g b) →
      l.foldr (fun b r => f b ++ r) [] = l.foldr (fun b r => g b ++ r) [] := by
  intro l
  induction l with
  | nil => intro _; rfl
  | cons b rest ih =>
      intro h
      simp only [List.foldr_cons]
      rw [h b (List.mem_cons_self _ _), ih (fun b' hb' => h b' (List.mem_cons_of_mem _ hb'))]

/-- C8 (amended): `encode_id` encodes every UTF-8 byte of the input into one
block — the byte itself when it is a letter or digit, otherwise an underscore
followed by the last two characters of Python's `hex` (two lowercase hex
digits for bytes `≥ 0x10`, the letter `x` and one hex digit for bytes
`< 0x10`) — no byte is ever dropped, and the output uses only letters, digits
and the underscore. -/
theorem c8_encode_id_amended (s : String) :
    (encode_id s).data
        = (utf8Encode s).foldr (fun b acc => encode_byte_spec b ++ acc) [] ∧
    ∀ c ∈ (encode_id s).data, c ∈ (allowedAlphabet ++ "_").data := by
  have hdata : (encode_id s).data
      = (utf8Encode s).foldr (fun b acc => encode_byte_py b ++ acc) [] := by
    unfold encode_id
    rw [encode_id_data]
    rfl
  have hlt := utf8Encode_lt s
  constructor
  · rw [hdata]
    exact foldr_congr_bytes _ _ _ (fun b hb => encode_byte_py_eq_spec b (hlt b hb))
  · intro c hc
    rw [hdata] at hc
    obtain ⟨b, hb, hcb⟩ := mem_foldr_append _ hc
    rw [encode_byte_py_eq_spec b (hlt b hb)] at hcb
    exact encode_byte_spec_closure b (hlt b hb) c hcb

/-! ### C3 -/

/-- A batch whose ranking is already failed, or whose own PUT fails, is kept
verbatim in the re-queued dict. -/
theorem processQueue_kept {δ : Type} (fail : String → Bool) :
    ∀ (q : Dict String (Dict String δ)) (failed : List String) (r : String),
      (r ∈ failed ∨ fail r = true) →
      dget (processQueue fail q failed).1 r = dget q r := by
  intro q
  induction q with
  | nil => intro failed r _; rfl
  | cons p rest ih =>
      intro failed r hr
      obtain ⟨rk, data⟩ := p
      simp only [processQueue]
      by_cases hm : rk ∈ failed
      · rw [if_pos hm]
        simp only [dget_cons]
        by_cases hrk : rk = r
        · rw [if_pos hrk, if_pos hrk]
        · rw [if_neg hrk, if_neg hrk]
          exact ih failed r hr
      · rw [if_neg hm]
        by_cases hf : fail rk = true
        · rw [if_pos hf]
          simp only [dget_cons]
          by_cases hrk : rk = r
          · rw [if_pos hrk, if_pos hrk]
          · rw [if_neg hrk, if_neg hrk]
            refine ih (failed ++ [rk]) r ?_
            rcases hr with hr | hr
            · exact Or.inl (List.mem_append_left _ hr)
            · exact Or.inr hr
        · rw [if_neg hf]
          simp only [dget_cons]
          by_cases hrk : rk = r
          · subst hrk
            rcases hr with hr | hr
            · exact absurd hr hm
            · exact absurd hr hf
          · rw [if_neg hrk]
            exact ih failed r hr

/-- A ranking that is not failed and whose PUT succeeds keeps nothing in the
re-queued dict. -/
theorem processQueue_sent_none {δ : Type} (fail : String → Bool) :
    ∀ (q : Dict String (Dict String δ)) (failed : List String) (r : String),
      r ∉ failed → fail r = false →
      dget (processQueue fail q failed).1 r = none := by
  intro q
  induction q with
  | nil => intro failed r _ _; rfl
  | cons p rest ih =>
      intro failed r hnm hf
      obtain ⟨rk, data⟩ := p
      simp only [processQueue]
      by_cases hm : rk ∈ failed
      · rw [if_pos hm]
        simp only [dget_cons]
        have hrk : rk ≠ r := fun he => hnm (he ▸ hm)
        rw [if_neg hrk]
        exact ih failed r hnm hf
      · rw [if_neg hm]
        by_cases hfk : fail rk = true
        · rw [if_pos hfk]
          simp only [dget_cons]
          have hrk : rk ≠ r := fun he => by rw [he] at hfk; rw [hfk] at hf; cases hf
          rw [if_neg hrk]
          refine ih (failed ++ [rk]) r ?_ hf
          intro hmem
          rcases List.mem_append.mp hmem with h1 | h1
          · exact hnm h1
          · exact hrk (List.mem_singleton.mp h1).symm
        · rw [if_neg hfk]
          exact ih failed r hnm hf

/-- A ranking that is not failed and whose PUT succeeds has its batch among
the delivered ones. -/
theorem processQueue_sent_mem {δ : Type} (fail : String → Bool) :
    ∀ (q : Dict String (Dict String δ)) (failed : List String) (r : String)
      (d : Dict String δ),
      dget q r = some d → r ∉ failed → fail r = false →
      (r, d) ∈ (processQueue fail q failed).2.2 := by
  intro q
  induction q with
  | nil => intro failed r d hd _ _; cases hd
  | cons p rest ih =>
      intro failed r d hd hnm hf
      obtain ⟨rk, data⟩ := p
      simp only [dget_cons] at hd
      simp only [processQueue]
      by_cases hrk : rk = r
      · subst hrk
        rw [if_pos rfl] at hd
        obtain ⟨rfl⟩ : data = d := by injection hd
        rw [if_neg hnm, if_neg (by rw [hf]; exact Bool.noConfusion)]
        exact List.mem_cons_self _ _
      · rw [if_neg hrk] at hd
        by_cases hm : rk ∈ failed
        · rw [if_pos hm]
          exact ih failed r d hd hnm hf
        · rw [if_neg hm]
          by_cases hfk : fail rk = true
          · rw [if_pos hfk]
            refine ih (failed ++ [rk]) r d hd ?_ hf
            intro hmem
            rcases List.mem_append.mp hmem with h1 | h1
            · exact hnm h1
            · exact hrk (List.mem_singleton.mp h1).symm
          · rw [if_neg hfk]
            exact List.mem_cons_of_mem _ (ih failed r d hd hnm hf)

/-- The failed set after a queue stage: the already-failed rankings plus
those whose own PUT fails and which had a pending batch. -/
theorem processQueue_failed_iff {δ : Type} (fail : String → Bool) :
    ∀ (q : Dict String (Dict String δ)) (failed : List String) (r : String),
      r ∈ (processQueue fail q failed).2.1 ↔
        r ∈ failed ∨ (fail r = true ∧ r ∈ dkeys q) := by
  intro q
  induction q with
  | nil =>
      intro failed r
      simp [processQueue, dkeys]
  | cons p rest ih =>
      intro failed r
      obtain ⟨rk, data⟩ := p
      simp only [processQueue, dkeys, List.map_cons, List.mem_cons]
      by_cases hm : rk ∈ failed
      · rw [if_pos hm, ih]
        constructor
        · rintro (h | ⟨h1, h2⟩)
          · exact Or.inl h
          · exact Or.inr ⟨h1, Or.inr h2⟩
        · rintro (h | ⟨h1, h2 | h2⟩)
          · exact Or.inl h
          · exact Or.inl (h2 ▸ hm)
          · exact Or.inr ⟨h1, h2⟩
      · rw [if_neg hm]
        by_cases hfk : fail rk = true
        · rw [if_pos hfk, ih]
          constructor
          · rintro (h | ⟨h1, h2⟩)
            · rcases List.mem_append.mp h with h3 | h3
              · exact Or.inl h3
              · rcases List.mem_singleton.mp h3 with rfl
                exact Or.inr ⟨hfk, Or.inl rfl⟩
            · exact Or.inr ⟨h1, Or.inr h2⟩
          · rintro (h | ⟨h1, h2 | h2⟩)
            · exact Or.inl (List.mem_append_left _ h)
            · subst h2
              exact Or.inl (List.mem_append_right _ (List.mem_singleton.mpr rfl))
            · exact Or.inr ⟨h1, h2⟩
        · rw [if_neg hfk, ih]
          constructor
          · rintro (h | ⟨h1, h2⟩)
            · exact Or.inl h
            · exact Or.inr ⟨h1, Or.inr h2⟩
          · rintro (h | ⟨h1, h2 | h2⟩)
            · exact Or.inl h
            · subst h2
              exact absurd h1 hfk
            · exact Or.inr ⟨h1, h2⟩

/-- The failed set after the initialize stage: exactly the rankings whose own
`initialize` attempt raised (plus any already failed). -/
theorem initStage_failed_iff (db : DB) (cid : Nat) (tf : TransportFails) :
    ∀ (q : List String) (failed : List String) (r : String),
      r ∈ (initStage db cid tf q failed).2.1 ↔
        r ∈ failed ∨ (r ∈ q ∧ ∃ e, initialize_ranking db cid tf r = .error e) := by
  intro q
  induction q with
  | nil =>
      intro failed r
      simp [initStage]
  | cons rk rest ih =>
      intro failed r
      simp only [initStage, List.mem_cons]
      by_cases hm : rk ∈ failed
      · rw [if_pos hm]
        rw [ih]
        constructor
        · rintro (h | ⟨h1, h2⟩)
          · exact Or.inl h
          · exact Or.inr ⟨Or.inr h1, h2⟩
        · rintro (h | ⟨h1 | h1, h2⟩)
          · exact Or.inl h
          · exact Or.inl (h1 ▸ hm)
          · exact Or.inr ⟨h1, h2⟩
      · rw [if_neg hm]
        cases hinit : initialize_ranking db cid tf rk with
        | ok evs =>
            rw [ih]
            constructor
            · rintro (h | ⟨h1, h2⟩)
              · exact Or.inl h
              · exact Or.inr ⟨Or.inr h1, h2⟩
            · rintro (h | ⟨h1 | h1, h2⟩)
              · exact Or.inl h
              · subst h1
                obtain ⟨e, he⟩ := h2
                rw [hinit] at he
                cases he
              · exact Or.inr ⟨h1, h2⟩
        | error e =>
            rw [ih]
            constructor
            · rintro (h | ⟨h1, h2⟩)
              · rcases List.mem_append.mp h with h3 | h3
                · exact Or.inl h3
                · rcases List.mem_singleton.mp h3 with rfl
                  exact Or.inr ⟨Or.inl rfl, e, hinit⟩
              · exact Or.inr ⟨Or.inr h1, h2⟩
            · rintro (h | ⟨h1 | h1, h2⟩)
              · exact Or.inl (List.mem_append_left _ h)
              · subst h1
                exact Or.inl (List.mem_append_right _ (List.mem_singleton.mpr rfl))
              · exact Or.inr ⟨h1, h2⟩

/-- Lookup after the final merge fold: for every ranking of the iterated key
list the concurrent entry wins on a shared key; other rankings keep the
accumulator's entry. -/
theorem mergeFold_lookup {δ : Type} (conc : Dict String (Dict String δ)) :
    ∀ (L : List String) (acc : Dict String (Dict String δ)) (r k : String),
      (dkeys (dgetD conc r [])).Nodup →
      dget (dgetD (L.foldl (fun acc2 ranking =>
          dinsert acc2 ranking (dupdate (dgetD acc2 ranking []) (dgetD conc ranking [])))
          acc) r []) k
        = (if r ∈ L then
            ((dget (dgetD conc r []) k).elim (dget (dgetD acc r []) k) some)
          else dget (dgetD acc r []) k) := by
  intro L
  induction L with
  | nil => intro acc r k _; simp
  | cons x xs ih =>
      intro acc r k hnod
      simp only [List.foldl_cons]
      rw [ih _ r k hnod]
      by_cases hx : x = r
      · subst hx
        have hacc : dgetD (dinsert acc x (dupdate (dgetD acc x []) (dgetD conc x []))) x []
            = dupdate (dgetD acc x []) (dgetD conc x []) := by
          unfold dgetD
          rw [dget_dinsert_self]
          rfl
        by_cases hmem : x ∈ xs
        · rw [if_pos hmem, if_pos (List.mem_cons_self x xs), hacc,
              dget_dupdate _ _ _ hnod]
          rcases hck : dget (dgetD conc x []) k with _ | v
          · simp
          · simp
        · rw [if_neg hmem, if_pos (List.mem_cons_self x xs), hacc,
              dget_dupdate _ _ _ hnod]
      · have hacc : dgetD (dinsert acc x (dupdate (dgetD acc x []) (dgetD conc x []))) r []
            = dgetD acc r [] := by
          unfold dgetD
          rw [dget_dinsert_ne _ _ _ _ hx]
        rw [hacc]
        by_cases hmem : r ∈ xs
        · rw [if_pos hmem, if_pos (List.mem_cons_of_mem _ hmem)]
        · have hnotc : r ∉ x :: xs := by
            intro hcon
            rcases List.mem_cons.mp hcon with h1 | h1
            · exact hx h1.symm
            · exact hmem h1
          rw [if_neg hmem, if_neg hnotc]

/-- `mergeQueues` seen through a per-ranking, per-key lookup: the concurrent
entry wins on a shared key, the re-queued entry fills the rest. -/
theorem mergeQueues_lookup {δ : Type} (new_q conc : Dict String (Dict String δ))
    (r k : String) (hnod : (dkeys (dgetD conc r [])).Nodup) :
    dget (dgetD (mergeQueues new_q conc) r []) k
      = ((dget (dgetD conc r []) k).elim (dget (dgetD new_q r []) k) some) := by
  unfold mergeQueues
  rw [mergeFold_lookup conc _ new_q r k hnod]
  by_cases hmem : r ∈ dkeys conc ++ dkeys new_q
  · rw [if_pos hmem]
  · rw [if_neg hmem]
    have hrc : r ∉ dkeys conc := fun h => hmem (List.mem_append_left _ h)
    have hnone : dget conc r = none := dget_eq_none_of_not_mem_dkeys hrc
    unfold dgetD
    rw [hnone]
    simp

/-- C3: one flush round, seen per endpoint `r`.
(i) `r` fails the initialize stage exactly when its own `initialize` attempt
raised;
(ii) if `r` failed before or at its submissions PUT, every key of its final
submission queue holds the concurrently-enqueued entry when there is one
(last-write-wins) and otherwise the swapped-out pending entry — nothing is
dropped;
(iii) if `r` did not fail, its pending submission batch was delivered (its
PUT is among the round's events) and its final submission queue holds exactly
the concurrently-enqueued entries;
(iv)/(v) the same for subchanges relative to the failed set after the
submissions stage;
(vi) `r` is in that failed set only through its own failures.
Other endpoints' failures never enter these conditions, so one endpoint's
failure does not prevent delivery to another. -/
theorem c3_flush_round_merge
    (db : DB) (cid : Nat) (tf : TransportFails)
    (init_q : List String)
    (sub_q : Dict String (Dict String SubmissionPut))
    (sch_q : Dict String (Dict String SubchangePut))
    (conc_init : List String)
    (conc_sub : Dict String (Dict String SubmissionPut))
    (conc_sch : Dict String (Dict String SubchangePut))
    (r : String)
    (hcs : (dkeys (dgetD conc_sub r [])).Nodup)
    (hcsch : (dkeys (dgetD conc_sch r [])).Nodup) :
    (r ∈ (initStage db cid tf init_q []).2.1 ↔
      r ∈ init_q ∧ ∃ e, initialize_ranking db cid tf r = .error e) ∧
    ((r ∈ (initStage db cid tf init_q []).2.1 ∨ tf r "submissions/" = true) →
      ∀ k, dget (dgetD (dispatch_operations db cid tf init_q sub_q sch_q conc_init
              conc_sub conc_sch).submission_queue r []) k
        = ((dget (dgetD conc_sub r []) k).elim (dget (dgetD sub_q r []) k) some)) ∧
    (r ∉ (initStage db cid tf init_q []).2.1 → tf r "submissions/" = false →
      (∀ k, dget (dgetD (dispatch_operations db cid tf init_q sub_q sch_q conc_init
              conc_sub conc_sch).submission_queue r []) k
          = dget (dgetD conc_sub r []) k) ∧
      (∀ d, dget sub_q r = some d →
        PutEvent.submissions r d ∈ (dispatch_operations db cid tf init_q sub_q sch_q
            conc_init conc_sub conc_sch).events)) ∧
    ((r ∈ (processQueue (fun x => tf x "submissions/") sub_q
          (initStage db cid tf init_q []).2.1).2.1 ∨ tf r "subchanges/" = true) →
      ∀ k, dget (dgetD (dispatch_operations db cid tf init_q sub_q sch_q conc_init
              conc_sub conc_sch).subchange_queue r []) k
        = ((dget (dgetD conc_sch r []) k).elim (dget (dgetD sch_q r []) k) some)) ∧
    (r ∉ (processQueue (fun x => tf x "submissions/") sub_q
          (initStage db cid tf init_q []).2.1).2.1 → tf r "subchanges/" = false →
      (∀ k, dget (dgetD (dispatch_operations db cid tf init_q sub_q sch_q conc_init
              conc_sub conc_sch).subchange_queue r []) k
          = dget (dgetD conc_sch r []) k) ∧
      (∀ d, dget sch_q r = some d →
        PutEvent.subchanges r d ∈ (dispatch_operations db cid tf init_q sub_q sch_q
            conc_init conc_sub conc_sch).events)) ∧
    (r ∈ (processQueue (fun x => tf x "submissions/") sub_q
          (initStage db cid tf init_q []).2.1).2.1 ↔
      (r ∈ (initStage db cid tf init_q []).2.1 ∨
        (tf r "submissions/" = true ∧ r ∈ dkeys sub_q))) := by
  have hsubq : (dispatch_operations db cid tf init_q sub_q sch_q conc_init conc_sub
      conc_sch).submission_queue
      = mergeQueues (processQueue (fun x => tf x "submissions/") sub_q
          (initStage db cid tf init_q []).2.1).1 conc_sub := rfl
  have hschq : (dispatch_operations db cid tf init_q sub_q sch_q conc_init conc_sub
      conc_sch).subchange_queue
      = mergeQueues (processQueue (fun x => tf x "subchanges/") sch_q
          (processQueue (fun x => tf x "submissions/") sub_q
            (initStage db cid tf init_q []).2.1).2.1).1 conc_sch := rfl
  have hevents : (dispatch_operations db cid tf init_q sub_q sch_q conc_init conc_sub
      conc_sch).events
      = (initStage db cid tf init_q []).2.2
        ++ ((processQueue (fun x => tf x "submissions/") sub_q
              (initStage db cid tf init_q []).2.1).2.2.map
            (fun p => PutEvent.submissions p.1 p.2))
        ++ ((processQueue (fun x => tf x "subchanges/") sch_q
              (processQueue (fun x => tf x "submissions/") sub_q
                (initStage db cid tf init_q []).2.1).2.1).2.2.map
            (fun p => PutEvent.subchanges p.1 p.2)) := rfl
  refine ⟨?_, ?_, ?_, ?_, ?_, ?_⟩
  · rw [initStage_failed_iff]
    simp
  · intro hfail k
    rw [hsubq, mergeQueues_lookup _ _ r k hcs]
    unfold dgetD
    rw [processQueue_kept _ sub_q _ r hfail]
  · intro hnot hok
    constructor
    · intro k
      rw [hsubq, mergeQueues_lookup _ _ r k hcs]
      unfold dgetD
      rw [processQueue_sent_none _ sub_q _ r hnot hok]
      rcases dget ((dget conc_sub r).getD []) k with _ | v
      · rfl
      · rfl
    · intro d hd
      rw [hevents]
      refine List.mem_append_left _ (List.mem_append_right _ ?_)
      exact List.mem_map_of_mem _
        (processQueue_sent_mem _ sub_q _ r d hd hnot hok)
  · intro hfail k
    rw [hschq, mergeQueues_lookup _ _ r k hcsch]
    unfold dgetD
    rw [processQueue_kept _ sch_q _ r hfail]
  · intro hnot hok
    constructor
    · intro k
      rw [hschq, mergeQueues_lookup _ _ r k hcsch]
      unfold dgetD
      rw [processQueue_sent_none _ sch_q _ r hnot hok]
      rcases dget ((dget conc_sch r).getD []) k with _ | v
      · rfl
      · rfl
    · intro d hd
      rw [hevents]
      refine List.mem_append_right _ ?_
      exact List.mem_map_of_mem _
        (processQueue_sent_mem _ sch_q _ r d hd hnot hok)
  · rw [processQueue_failed_iff]

def c3tf : TransportFails := fun rk _ => rk == "a"

def c3putA : SubmissionPut := { user := "ua", task := "t", time := 1 }

def c3putB : SubmissionPut := { user := "ub", task := "t", time := 2 }

def c3subq : Dict String (Dict String SubmissionPut) :=
  [("a", [("k1", c3putA)]), ("b", [("k2", c3putB)])]

/-- Witness for C3 (scenario B): endpoint `a` unreachable and endpoint `b`
reachable, each with one pending submission entry and nothing enqueued
concurrently — after one flush `a`'s entry is still in the queue, `b`'s
queues are empty and `b`'s PUT was observed. -/
theorem c3_flush_round_merge_witness :
    (∀ k, dget (dgetD (dispatch_operations c2db 1 c3tf [] c3subq [] [] [] []).submission_queue
        "a" []) k
      = ((dget (dgetD ([] : Dict String (Dict String SubmissionPut)) "a" []) k).elim
          (dget (dgetD c3subq "a" []) k) some)) ∧
    (∀ k, dget (dgetD (dispatch_operations c2db 1 c3tf [] c3subq [] [] [] []).submission_queue
        "b" []) k
      = dget (dgetD ([] : Dict String (Dict String SubmissionPut)) "b" []) k) ∧
    PutEvent.submissions "b" [("k2", c3putB)]
      ∈ (dispatch_operations c2db 1 c3tf [] c3subq [] [] [] []).events :=
  ⟨(c3_flush_round_merge c2db 1 c3tf [] c3subq [] [] [] [] "a"
      (by decide) (by decide)).2.1 (Or.inr rfl),
   ((c3_flush_round_merge c2db 1 c3tf [] c3subq [] [] [] [] "b"
      (by decide) (by decide)).2.2.1 (by decide) rfl).1,
   ((c3_flush_round_merge c2db 1 c3tf [] c3subq [] [] [] [] "b"
      (by decide) (by decide)).2.2.1 (by decide) rfl).2 [("k2", c3putB)] rfl⟩

def c10dataIgnore : Tps.ProblemData :=
  { code := "p10", title := "P10", problem_label := none, ptype := "batch",
    feedback_level := none, max_submission_number := none,
    max_user_test_number := none, min_submission_interval := none,
    min_user_test_interval := none, score_precision := none, score_mode := none,
    ignore_datasets := some true, ignore_checker := none,
    add_optional_name := none, time_limit := none, memory_limit := none,
    task_type_params := none }

def c10data : Tps.ProblemData :=
  { code := "p10", title := "P10", problem_label := none, ptype := "batch",
    feedback_level := none, max_submission_number := none,
    max_user_test_number := none, min_submission_interval := none,
    min_user_test_interval := none, score_precision := none, score_mode := none,
    ignore_datasets := none, ignore_checker := none,
    add_optional_name := none, time_limit := some 1, memory_limit := some 256,
    task_type_params := some Tps.TTPValue.empty }

def c10listdir : String → List String := fun p =>
  if p = "tests" then ["0.in"] else []

def c10fsIgnore : Tps.FS :=
  { exists_paths := ["problem.json", "tests", "tests/0.in"],
    listdir := c10listdir, isdir := fun _ => false,
    problem_json := .ok c10dataIgnore, subtasks_json := .malformed,
    mapping_rows := [], fuel := 1 }

def c10fsOk : Tps.FS :=
  { exists_paths := ["problem.json", "tests", "tests/0.in", "tests/0.out"],
    listdir := c10listdir, isdir := fun _ => false,
    problem_json := .ok c10data, subtasks_json := .malformed,
    mapping_rows := [], fuel := 1 }

def c10fsMissing : Tps.FS :=
  { exists_paths := ["problem.json", "tests", "tests/0.in"],
    listdir := c10listdir, isdir := fun _ => false,
    problem_json := .ok c10data, subtasks_json := .malformed,
    mapping_rows := [], fuel := 1 }

/-- C10 counterexample: a task directory listing the testcase input `0.in`
whose output `0.out` does not exist, but whose `problem.json` sets
`ignore_datasets`: `get_task` returns a Task instead of `None`, because the
`ignore_datasets` early return (line 247) precedes the missing-output check
(lines 349-356). -/
theorem c10_ignore_datasets_skips_check :
    ("0.in" ∈ c10fsIgnore.listdir (Tps.pjoin "" "tests")) ∧
    Tps.pexists c10fsIgnore (Tps.pjoin (Tps.pjoin "" "tests") ("0" ++ ".out")) = false ∧
    ∃ t, Tps.get_task c10fsIgnore "" false = .ok (some t) :=
  ⟨by decide, by decide, ⟨_, rfl⟩⟩

/-- With `task_type_params` present and equal to the empty/`None` value,
`_get_task_type_parameters` never raises; its result for each task type. -/
def Tps.ttpEmpty (fs : Tps.FS) (path tt ep : String) : List String :=
  if tt = "Batch" then ["grader", "", "", ep]
  else if tt = "Communication" then ["1", "stub", "fifo_io"]
  else if tt = "TwoSteps" ∨ tt = "OutputOnly" then [ep]
  else []

theorem get_task_type_params_empty (fs : Tps.FS) (path : String)
    (data : Tps.ProblemData) (h : data.task_type_params = some Tps.TTPValue.empty) :
    ∀ tt ep, Tps.get_task_type_params fs path data tt ep
      = .ok (Tps.ttpEmpty fs path tt ep) := by
  intro tt ep
  unfold Tps.get_task_type_params Tps.ttpEmpty
  simp only [h]
  by_cases h1 : tt = "Batch"
  · simp only [if_pos h1]
    rfl
  · simp only [if_neg h1]
    by_cases h2 : tt = "Communication"
    · simp only [if_pos h2]
      rfl
    · simp only [if_neg h2]
      by_cases h3 : tt = "TwoSteps" ∨ tt = "OutputOnly"
      · simp only [if_pos h3]
      · simp only [if_neg h3]

/-- C10 (amended): the missing-output check governs `get_task`'s result only
once the `ignore_datasets` early return does not fire and the earlier
required keys are present: then a listed testcase input without its output
file makes `get_task` return no Task (without raising), and if every listed
input has its output (and no `subtasks.json` is present) a Task is
returned. -/
theorem c10_testcase_check_amended (fs : Tps.FS) (path : String) (gs : Bool)
    (data : Tps.ProblemData) (tl ml : Int)
    (h0 : Tps.pexists fs (Tps.pjoin path "problem.json") = true)
    (h1 : fs.problem_json = .ok data)
    (h2 : data.ptype ≠ "")
    (h3 : data.ignore_datasets.getD false = false)
    (h4a : data.time_limit = some tl) (h4b : data.memory_limit = some ml)
    (h5 : data.task_type_params = some Tps.TTPValue.empty)
    (h6 : Tps.pexists fs (Tps.pjoin path "subtasks.json") = false) :
    ((if Tps.pexists fs (Tps.pjoin path "tests") = false then []
        else Tps.sortStrings (((fs.listdir (Tps.pjoin path "tests")).filter
          (fun f => Tps.strTakeRight f 3 = ".in")).map (fun f => Tps.strDropRight f 3))).any
        (fun c => !(Tps.pexists fs (Tps.pjoin (Tps.pjoin path "tests") (c ++ ".out")))) = true →
      Tps.get_task fs path gs = .ok none) ∧
    ((if Tps.pexists fs (Tps.pjoin path "tests") = false then []
        else Tps.sortStrings (((fs.listdir (Tps.pjoin path "tests")).filter
          (fun f => Tps.strTakeRight f 3 = ".in")).map (fun f => Tps.strDropRight f 3))).any
        (fun c => !(Tps.pexists fs (Tps.pjoin (Tps.pjoin path "tests") (c ++ ".out")))) = false →
      ∃ t, Tps.get_task fs path gs = .ok (some t)) := by
  have hjson : ¬ (Tps.pexists fs (Tps.pjoin path "problem.json") = false) := by
    rw [h0]
    exact fun h => Bool.noConfusion h
  have hign : ¬ (data.ignore_datasets.getD false = true) := by
    rw [h3]
    exact fun h => Bool.noConfusion h
  simp only [Tps.get_task]
  rw [if_neg hjson]
  simp only [h1]
  rw [if_neg h2, if_neg hign]
  by_cases hdt : (Tps.capitalizeFirst data.ptype ≠ "OutputOnly"
      ∧ Tps.capitalizeFirst data.ptype ≠ "Notice")
  · rw [if_pos hdt]
    simp only [h4a, h4b, get_task_type_params_empty fs path data h5]
    constructor
    · intro hany
      rw [hany, if_pos rfl]
    · intro hnone
      rw [hnone, if_neg (fun h => Bool.noConfusion h), h6, if_pos rfl]
      exact ⟨_, rfl⟩
  · rw [if_neg hdt]
    simp only [get_task_type_params_empty fs path data h5]
    constructor
    · intro hany
      rw [hany, if_pos rfl]
    · intro hnone
      rw [hnone, if_neg (fun h => Bool.noConfusion h), h6, if_pos rfl]
      exact ⟨_, rfl⟩

/-- Witness for C10 (amended): on the concrete directory with `0.in`/`0.out`
both present a Task is returned; with `0.out` removed, no Task and no
exception. -/
theorem c10_testcase_check_amended_witness :
    (∃ t, Tps.get_task c10fsOk "" false = .ok (some t)) ∧
    Tps.get_task c10fsMissing "" false = .ok none :=
  ⟨(c10_testcase_check_amended c10fsOk "" false c10data 1 256
      (by decide) rfl (by decide) rfl rfl rfl rfl (by decide)).2 (by decide),
   (c10_testcase_check_amended c10fsMissing "" false c10data 1 256
      (by decide) rfl (by decide) rfl rfl rfl rfl (by decide)).1 (by decide)⟩

end CMS
